import Mathlib

/-!
# Verification of the ground-control GraphQL backend (`src/backend/data/schema.js`)

This file shallowly embeds the data model and the resolvers of
`src/backend/data/schema.js` and proves (or refutes) the frozen claims about
them.  Database tables are lists of row structures, the session and database
are threaded explicitly, external effect (CRM, e-mail) calls are recorded in a
`World` state, and the knex transaction wrapper is modelled by rolling the
database back on a thrown error while keeping the external-effect logs.
-/

namespace GroundControl

/-- The name of the group of all constituents. -/
def EVERYONE_GROUP : String := "everyone"

/-! ## Rows of the relational tables, as used by the resolvers -/

/-- A row of `users`. -/
structure UserRow where
  id : Nat
  email : String
  is_admin : Bool
  is_superuser : Bool
  deriving Repr, DecidableEq

/-- A row of `bsd_people` (only the column the resolvers read). -/
structure PersonRow where
  cons_id : Nat
  deriving Repr, DecidableEq

/-- A row of `bsd_emails`. -/
structure EmailRow where
  cons_id : Nat
  email : String
  is_primary : Bool
  deriving Repr, DecidableEq

/-- A row of `bsd_phones`. -/
structure PhoneRow where
  cons_id : Nat
  phone : String
  is_primary : Bool
  deriving Repr, DecidableEq

/-- A row of `bsd_addresses`.  `geom` is the PostGIS point used only by
`st_dwithin` in `nearbyPeople`; one coordinate suffices for the distance
predicate. -/
structure AddressRow where
  cons_id : Nat
  zip : String
  is_primary : Bool
  geom : Int
  deriving Repr, DecidableEq

/-- A row of `zip_codes`. -/
structure ZipCodeRow where
  zip : String
  timezone_offset : Int
  deriving Repr, DecidableEq

/-- A row of `bsd_subscriptions`. -/
structure SubscriptionRow where
  cons_id : Nat
  isunsub : Bool
  deriving Repr, DecidableEq

/-- A row of `communications`. -/
structure CommunicationRow where
  id : Nat
  person_id : Nat
  deriving Repr, DecidableEq

/-- A row of `bsd_assigned_calls`. -/
structure AssignedCallRow where
  id : Nat
  caller_id : Nat
  interviewee_id : Nat
  call_assignment_id : Nat
  deriving Repr, DecidableEq

/-- A row of `bsd_calls`.  `attempted_at` is minutes since an arbitrary epoch
(the resolvers only compare it against `now - 24h`). -/
structure CallRow where
  completed : Bool
  attempted_at : Int
  left_voicemail : Option Bool
  sent_text : Option Bool
  reason_not_completed : Option String
  caller_id : Nat
  interviewee_id : Nat
  call_assignment_id : Nat
  deriving Repr, DecidableEq

/-- A row of `bsd_call_assignments` (columns read by the verified resolvers). -/
structure CallAssignmentRow where
  id : Nat
  gc_bsd_survey_id : Nat
  interviewee_group : Nat
  deriving Repr, DecidableEq

/-- A row of `gc_bsd_surveys`. -/
structure GcSurveyRow where
  id : Nat
  signup_form_id : Nat
  processors : List String
  deriving Repr, DecidableEq

/-- A row of `gc_bsd_groups`. -/
structure GcGroupRow where
  id : Nat
  cons_group_id : Option Nat
  query : Option String
  deriving Repr, DecidableEq

/-- A row of `bsd_person_bsd_groups`. -/
structure PersonBsdGroupRow where
  cons_id : Nat
  cons_group_id : Nat
  deriving Repr, DecidableEq

/-- A row of `bsd_person_gc_bsd_groups`. -/
structure PersonGcGroupRow where
  cons_id : Nat
  gc_bsd_group_id : Nat
  deriving Repr, DecidableEq

/-- A row of `bsd_survey_fields` (columns read by the form submitter). -/
structure SurveyFieldRow where
  signup_form_field_id : Nat
  signup_form_id : Nat
  label : String
  deriving Repr, DecidableEq

/-- A row of `bsd_events` (columns the verified mutations touch). -/
structure EventRow where
  event_id : Nat
  creator_cons_id : Nat
  flag_approval : Bool
  geom : Int
  deriving Repr, DecidableEq

/-- A row of `gc_bsd_events` (the `pending_review` flag). -/
structure GcEventRow where
  event_id : Nat
  pending_review : Bool
  deriving Repr, DecidableEq

/-- A row of `fast_fwd_request`. -/
structure FastFwdRow where
  id : Nat
  event_id : Nat
  host_message : String
  email_sent_dt : Option Int
  deriving Repr, DecidableEq

/-- The database: each table is the list of its rows, in scan order.
`next_id` models the id sequences used when inserting new rows. -/
structure Db where
  users : List UserRow := []
  people : List PersonRow := []
  emails : List EmailRow := []
  phones : List PhoneRow := []
  addresses : List AddressRow := []
  zip_codes : List ZipCodeRow := []
  subscriptions : List SubscriptionRow := []
  communications : List CommunicationRow := []
  assigned_calls : List AssignedCallRow := []
  calls : List CallRow := []
  call_assignments : List CallAssignmentRow := []
  gc_surveys : List GcSurveyRow := []
  gc_groups : List GcGroupRow := []
  person_bsd_groups : List PersonBsdGroupRow := []
  person_gc_groups : List PersonGcGroupRow := []
  survey_fields : List SurveyFieldRow := []
  events : List EventRow := []
  gc_events : List GcEventRow := []
  fast_fwd_request : List FastFwdRow := []
  next_id : Nat := 0
  deriving Repr, DecidableEq

/-! ## Errors

`class GraphQLError extends Error` stringifies its error object into the
`message`; other thrown values are plain `Error`s or JavaScript runtime
errors (e.g. reading a property of `undefined`). -/

/-- The object handed to the `GraphQLError` constructor. -/
structure ErrObj where
  status : Nat
  message : String
  deriving Repr, DecidableEq

/-- `JSON.stringify` of an error object of shape `{status, message}`. -/
def jsonStringifyErr (e : ErrObj) : String :=
  "\x7b\"status\":" ++ toString e.status ++ ",\"message\":\"" ++ e.message ++ "\"\x7d"

/-- A value thrown by a resolver. -/
inductive AppError where
  /-- a `GraphQLError` carrying a status/message object -/
  | graphql (obj : ErrObj)
  /-- a plain `new Error(msg)` -/
  | plain (msg : String)
  /-- a JavaScript runtime failure (property access on `undefined`, …) -/
  | jsCrash (msg : String)
  deriving Repr, DecidableEq

/-- The `message` property of the thrown value: `GraphQLError` sets it to the
JSON-stringified error object. -/
def AppError.message : AppError → String
  | .graphql obj => jsonStringifyErr obj
  | .plain msg => msg
  | .jsCrash msg => msg

/-- `s` contains `t` as a contiguous substring. -/
def strContains (s t : String) : Prop :=
  ∃ pre post, s = pre ++ t ++ post

/-- The error `authRequired` throws. -/
def loginRequiredError : AppError :=
  .graphql ⟨401, "You must login to access that resource."⟩

/-- The error `adminRequired` (and `superuserRequired`) throws for a
logged-in but unauthorized user. -/
def notAuthorizedError : AppError :=
  .graphql ⟨403, "You are not authorized to access that resource."⟩

/-- The session attached to `rootValue`. -/
structure Session where
  user : Option UserRow
  deriving Repr, DecidableEq

deriving instance DecidableEq for Except

/-! ## Auth guards (`authRequired`, `adminRequired`, `superuserRequired`) -/

/-- `authRequired(session)`: throws a 401 `GraphQLError` when the session has
no user. -/
def authRequired (session : Session) : Except AppError Unit :=
  match session.user with
  | none => .error (.graphql ⟨401, "You must login to access that resource."⟩)
  | some _ => .ok ()

/-- `adminRequired(session)`: `authRequired`, then a 403 `GraphQLError`
unless `session.user.is_admin`. -/
def adminRequired (session : Session) : Except AppError Unit :=
  match authRequired session with
  | .error e => .error e
  | .ok _ =>
    match session.user with
    | some u =>
        if u.is_admin then .ok ()
        else .error (.graphql ⟨403, "You are not authorized to access that resource."⟩)
    | none => .error (.graphql ⟨403, "You are not authorized to access that resource."⟩)

/-- `superuserRequired(session)`. -/
def superuserRequired (session : Session) : Except AppError Unit :=
  match authRequired session with
  | .error e => .error e
  | .ok _ =>
    match session.user with
    | some u =>
        if u.is_superuser then .ok ()
        else .error (.graphql ⟨403, "You are not authorized to access that resource."⟩)
    | none => .error (.graphql ⟨403, "You are not authorized to access that resource."⟩)

/-! ## Primary-contact helpers (`getPrimaryEmail`, `getPrimaryAddress`,
`getPrimaryPhone`) — each issues a `.where({is_primary: true, cons_id}).first()`
query, i.e. takes the first row of the table satisfying both conditions. -/

/-- `getPrimaryEmail(person)`: first `bsd_emails` row with `is_primary` and the
person's `cons_id`, projected to its `email`; `null` when there is none. -/
def getPrimaryEmail (db : Db) (person : PersonRow) : Option String :=
  (db.emails.find? fun r => r.is_primary && r.cons_id == person.cons_id).map
    (fun r => r.email)

/-- `getPrimaryAddress(person)`: first `bsd_addresses` row with `is_primary`
and the person's `cons_id` (the whole row), or no row. -/
def getPrimaryAddress (db : Db) (person : PersonRow) : Option AddressRow :=
  db.addresses.find? fun r => r.is_primary && r.cons_id == person.cons_id

/-- `getPrimaryPhone(person)`: first `bsd_phones` row with `is_primary` and the
person's `cons_id`, projected to its `phone`; `null` when there is none. -/
def getPrimaryPhone (db : Db) (person : PersonRow) : Option String :=
  (db.phones.find? fun r => r.is_primary && r.cons_id == person.cons_id).map
    (fun r => r.phone)

/-! ## External effects

The CRM client (`src/backend/bsd.js`) and the mailer (`src/backend/mail.js`)
are not under `src/`; they are modelled from the spec.  Whether a given CRM
request succeeds is decided by an ambient oracle indexed by the number of CRM
calls made so far. -/

/-- An external-effect record: a CRM API call (with its outcome) or an e-mail
handed to Mailgun. -/
inductive Effect where
  | crm (api : String) (ok : Bool)
  | mail (recipient : String)
  deriving Repr, DecidableEq

/-- The world: the database plus the log of external effects.  A database
transaction rolls `db` back on error; external effects are never rolled
back. -/
structure World where
  db : Db
  effects : List Effect := []
  crmCount : Nat := 0
  deriving Repr, DecidableEq

/-- Modelled from the spec: the BSD CRM client's plain API request
(`src/backend/bsd.js` is not under `src/`).  The request is recorded; it
throws exactly when the oracle says this call fails. -/
def BSDClient.apiRequest (oracle : Nat → Bool) (api : String) (w : World) :
    Except AppError Unit × World :=
  let ok := oracle w.crmCount
  let w' := { w with crmCount := w.crmCount + 1, effects := w.effects ++ [.crm api ok] }
  (if ok then .ok () else .error (.plain ("BSD API request failed: " ++ api)), w')

/-- Modelled from the spec: `noFailApiRequest` — "CRM API failures are caught
and partially retried/ignored ('noFailApiRequest')".  The request is attempted
and any failure is swallowed, so it never throws. -/
def BSDClient.noFailApiRequest (oracle : Nat → Bool) (api : String) (w : World) : World :=
  (BSDClient.apiRequest oracle api w).2

/-- Modelled from the spec: the Mailgun wrapper records the outgoing e-mail
(`src/backend/mail.js` is not under `src/`). -/
def Mailgun.send (recipient : String) (w : World) : World :=
  { w with effects := w.effects ++ [.mail recipient] }

/-- `knex.transaction(body)`: on a thrown error the database is rolled back;
external effects (CRM calls, e-mails) are not. -/
def runTransaction {α} (w : World) (body : World → Except AppError α × World) :
    Except AppError α × World :=
  match body w with
  | (.ok a, w') => (.ok a, w')
  | (.error e, w') => (.error e, { w' with db := w.db })

/-! ## Admin mutations on events (schema.js lines 1281–1551) -/

/-- `markEventsReviewed(ids, pendingReview = false)`: set `pending_review` on
the `gc_bsd_events` rows of the given events. -/
def markEventsReviewed (ids : List Nat) (pendingReview : Bool) (db : Db) : Db :=
  { db with gc_events := db.gc_events.map fun ge =>
      if ge.event_id ∈ ids then { ge with pending_review := pendingReview } else ge }

/-- The fields of one entry of the `EditEvents` input list (the model keeps
the approval flag; the remaining field merging is value plumbing that no
verified claim observes). -/
structure EventInput where
  event_id : Nat
  flag_approval : Bool
  deriving Repr, DecidableEq

/-- The per-event loop of `EditEvents`: look the event up (reading a field of
a missing event is a runtime crash), record it as reviewed when approval is
being cleared, call the CRM `updateEvent`, and update the local row.  A CRM
failure is caught and the loop continues without the local update (the model
folds the `BSDValidationError` and unknown-error branches into one). -/
def editEventsLoop (oracle : Nat → Bool) :
    List EventInput → List Nat → World → Except AppError (List Nat) × World
  | [], reviewed, w => (.ok reviewed, w)
  | inp :: rest, reviewed, w =>
    match w.db.events.find? fun ev => ev.event_id == inp.event_id with
    | none => (.error (.jsCrash "cannot read flag_approval of undefined"), w)
    | some ev =>
      let reviewed' := if ev.flag_approval = true ∧ inp.flag_approval = false
        then reviewed ++ [ev.event_id] else reviewed
      match BSDClient.apiRequest oracle "updateEvent" w with
      | (.error _, w1) => editEventsLoop oracle rest reviewed' w1
      | (.ok _, w1) =>
        editEventsLoop oracle rest reviewed'
          { w1 with db := { w1.db with events := w1.db.events.map fun e2 =>
              if e2.event_id = inp.event_id
              then { e2 with flag_approval := inp.flag_approval } else e2 } }

/-- The `EditEvents` mutation: `adminRequired`, then the per-event loop, then
`markEventsReviewed` for events whose approval flag was cleared. -/
def editEvents (oracle : Nat → Bool) (session : Session) (inputs : List EventInput)
    (w : World) : Except AppError Unit × World :=
  match adminRequired session with
  | .error e => (.error e, w)
  | .ok _ =>
    match editEventsLoop oracle inputs [] w with
    | (.error e, w') => (.error e, w')
    | (.ok reviewed, w') =>
      if reviewed.length > 0
      then (.ok (), { w' with db := markEventsReviewed reviewed false w'.db })
      else (.ok (), w')

/-- The `ReviewEvents` mutation: `adminRequired`, then `markEventsReviewed`. -/
def reviewEvents (session : Session) (ids : List Nat) (pendingReview : Bool)
    (w : World) : Except AppError Unit × World :=
  match adminRequired session with
  | .error e => (.error e, w)
  | .ok _ => (.ok (), { w with db := markEventsReviewed ids pendingReview w.db })

/-- The event-deletion notification e-mails of `DeleteEvents`: one to each
host with a primary e-mail, and one to the acting admin (the attendee e-mails
follow the same pattern and are folded into the host pass). -/
def deletionEmails (db : Db) (ids : List Nat) (adminEmail : String) (w : World) : World :=
  let hosts := (db.events.filter fun ev => ev.event_id ∈ ids).map fun ev => ev.creator_cons_id
  let w1 := hosts.foldl (fun acc cid =>
    match getPrimaryEmail db ⟨cid⟩ with
    | some recipient => Mailgun.send recipient acc
    | none => acc) w
  Mailgun.send adminEmail w1

/-- The `DeleteEvents` mutation: `adminRequired`; a non-superuser may only
pass exactly one id; the CRM `deleteEvents` call may throw; the notification
e-mails are attempted only for a non-empty host message (failures there are
caught); finally the local rows are deleted and marked reviewed. -/
def deleteEvents (oracle : Nat → Bool) (session : Session) (ids : List Nat)
    (hostMessage : String) (w : World) : Except AppError (List Nat) × World :=
  match adminRequired session, session.user with
  | .error e, _ => (.error e, w)
  | .ok _, none => (.error (.jsCrash "unreachable: adminRequired passed without user"), w)
  | .ok _, some u =>
    if u.is_superuser = false ∧ ids.length ≠ 1 then
      (.error (.graphql ⟨403, "Your account is only authorized to delete one event at a time."⟩), w)
    else
      match BSDClient.apiRequest oracle "deleteEvents" w with
      | (.error e, w1) => (.error e, w1)
      | (.ok _, w1) =>
        let w2 := if hostMessage.length > 0 then deletionEmails w1.db ids u.email w1 else w1
        let db' := { w2.db with events := w2.db.events.filter fun ev => ev.event_id ∉ ids }
        (.ok ids, { w2 with db := markEventsReviewed ids false db' })

/-- The target selector of `EmailHostAttendees`. -/
inductive EmailTarget where
  | host
  | attendees
  | hostAndAttendees
  deriving Repr, DecidableEq

/-- The `EmailHostAttendees` mutation: `adminRequired`; gather the hosts'
primary e-mails when the target includes hosts (the attendee table is not
modelled; attendees extend the same bcc list), then send a single e-mail
whose bcc carries the recipients. -/
def emailHostAttendees (session : Session) (ids : List Nat) (target : EmailTarget)
    (w : World) : Except AppError Unit × World :=
  match adminRequired session with
  | .error e => (.error e, w)
  | .ok _ =>
    let _recipients :=
      if target = EmailTarget.host ∨ target = EmailTarget.hostAndAttendees then
        ((w.db.events.filter fun ev => ev.event_id ∈ ids).map fun ev =>
          getPrimaryEmail w.db ⟨ev.creator_cons_id⟩).reduceOption
      else []
    (.ok (), Mailgun.send "info@ourrevolution.com" w)

/-- The `CreateAdminEventEmail` mutation: `adminRequired`, then the tool
password check (a 401), the admin invite e-mail, the already-sent check (a
403), one invite e-mail and one `communications` insert per recipient, and
finally the `email_sent_dt` update when there was at least one recipient. -/
def createAdminEventEmail (session : Session) (toolPassword adminEmail : String)
    (recipients : List Nat) (eventId : Nat) (now : Int) (w : World) :
    Except AppError Unit × World :=
  match adminRequired session with
  | .error e => (.error e, w)
  | .ok _ =>
    if toolPassword ≠ "solidarity" then
      (.error (.graphql ⟨401, "Incorrect password for this tool."⟩), w)
    else
      let w1 := Mailgun.send adminEmail w
      match w1.db.fast_fwd_request.find? fun f =>
          f.event_id == eventId && f.email_sent_dt.isSome with
      | some _ =>
        (.error (.graphql ⟨403, "Fast Forward has already been sent for this event."⟩), w1)
      | none =>
        let w2 := recipients.foldl (fun acc cid =>
          let acc1 :=
            match getPrimaryEmail acc.db ⟨cid⟩ with
            | some recipientEmail => Mailgun.send recipientEmail acc
            | none => Mailgun.send "" acc
          { acc1 with db := { acc1.db with
              communications := acc1.db.communications ++ [⟨acc1.db.next_id, cid⟩]
              next_id := acc1.db.next_id + 1 } }) w1
        if recipients.length > 0 then
          (.ok (), { w2 with db := { w2.db with
            fast_fwd_request := w2.db.fast_fwd_request.map fun f =>
              if f.event_id = eventId then { f with email_sent_dt := some now } else f } })
        else (.ok (), w2)

/-- The interviewee-group argument of `CreateCallAssignment`: a numeric BSD
constituent-group id or a SQL query string. -/
def GroupArg := Sum Nat String

/-- The `CreateCallAssignment` mutation: `adminRequired`, then a transaction
inserting the `gc_bsd_surveys` row, finding or inserting the `gc_bsd_groups`
row, and inserting the `bsd_call_assignments` row (the CRM survey/group
mirroring and the SQL validation of query groups are value plumbing the
verified claims do not observe). -/
def createCallAssignment (session : Session) (surveyId : Nat) (processors : List String)
    (groupArg : GroupArg) (w : World) : Except AppError CallAssignmentRow × World :=
  match adminRequired session with
  | .error e => (.error e, w)
  | .ok _ =>
    runTransaction w fun w0 =>
      let surveyRow : GcSurveyRow := ⟨w0.db.next_id, surveyId, processors⟩
      let db1 := { w0.db with
                   gc_surveys := w0.db.gc_surveys ++ [surveyRow]
                   next_id := w0.db.next_id + 1 }
      let groupFound :=
        match groupArg with
        | .inl cgid => db1.gc_groups.find? fun gr => gr.cons_group_id == some cgid
        | .inr q => db1.gc_groups.find? fun gr => gr.query == some q
      let (group, db2) :=
        match groupFound with
        | some gr => (gr, db1)
        | none =>
          let gr : GcGroupRow :=
            match groupArg with
            | .inl cgid => ⟨db1.next_id, some cgid, none⟩
            | .inr q => ⟨db1.next_id, none, some q⟩
          (gr, { db1 with gc_groups := db1.gc_groups ++ [gr], next_id := db1.next_id + 1 })
      let assignment : CallAssignmentRow := ⟨db2.next_id, surveyRow.id, group.id⟩
      (.ok assignment, { w0 with db := { db2 with
        call_assignments := db2.call_assignments ++ [assignment]
        next_id := db2.next_id + 1 } })

/-! ## The `SubmitCallSurvey` mutation (schema.js lines 1587–1748)

The whole workflow runs inside `knex.transaction`.  The survey field values
arrive as a JSON string and are parsed up front; they are modelled as the
already-parsed key/value pairs.  The CRM request payload assembly of the
`bsd-form-submitter` processor only reads `bsd_survey_fields` and is not
modelled, because the CRM effect model carries no payload. -/

/-- The input of `SubmitCallSurvey` (`surveyFieldValues` already parsed). -/
structure SurveyInput where
  callAssignmentId : Nat
  intervieweeId : Nat
  completed : Bool
  leftVoicemail : Option Bool
  sentText : Option Bool
  reasonNotCompleted : Option String
  fieldValues : List (String × String)
  deriving Repr, DecidableEq

/-- The processor loop of `SubmitCallSurvey`.  `bsd-event-rsvper`: when the
field values carry an `event_id`, read the person's primary address (reading
`.zip` of a missing address is a runtime crash) and RSVP through
`noFailApiRequest`.  `bsd-form-submitter`: when the person has a primary
e-mail, submit the signup form through `noFailApiRequest`, else only log.
Unknown processors do nothing.  The database is never written. -/
def runProcessors (oracle : Nat → Bool) (person : PersonRow) (email : Option String)
    (eventIdField : Option String) :
    List String → World → Except AppError Unit × World
  | [], w => (.ok (), w)
  | proc :: rest, w =>
    if proc = "bsd-event-rsvper" then
      match eventIdField with
      | some _ =>
        match getPrimaryAddress w.db person with
        | none => (.error (.jsCrash "cannot read zip of undefined"), w)
        | some _ =>
          runProcessors oracle person email eventIdField rest
            (BSDClient.noFailApiRequest oracle "addRSVPToEvent" w)
      | none => runProcessors oracle person email eventIdField rest w
    else if proc = "bsd-form-submitter" then
      match email with
      | some _ =>
        runProcessors oracle person email eventIdField rest
          (BSDClient.noFailApiRequest oracle "processSignup" w)
      | none => runProcessors oracle person email eventIdField rest w
    else runProcessors oracle person email eventIdField rest w

/-- The body of `SubmitCallSurvey`, run inside the transaction: check that the
matching assigned call exists and agrees with the submitted call info, load
the call assignment, survey and person (reading fields of missing rows is a
runtime crash), run the processors when the call is completed, then delete the
assigned call and insert the `bsd_calls` record. -/
def submitCallSurveyBody (oracle : Nat → Bool) (caller : UserRow) (inp : SurveyInput)
    (now : Int) (w : World) : Except AppError UserRow × World :=
  match w.db.assigned_calls.find? fun r =>
      r.caller_id == caller.id && r.call_assignment_id == inp.callAssignmentId with
  | none => (.error (.plain "No assigned call found when caller submitted call survey"), w)
  | some assignedCall =>
    if assignedCall.caller_id ≠ caller.id ∨
       assignedCall.interviewee_id ≠ inp.intervieweeId ∨
       assignedCall.call_assignment_id ≠ inp.callAssignmentId then
      (.error (.plain "Assigned call does not match submitted call info."), w)
    else
      match w.db.call_assignments.find? fun a => a.id == inp.callAssignmentId with
      | none => (.error (.jsCrash "cannot read gc_bsd_survey_id of undefined"), w)
      | some callAssignment =>
        match w.db.gc_surveys.find? fun s => s.id == callAssignment.gc_bsd_survey_id with
        | none => (.error (.jsCrash "cannot read processors of undefined"), w)
        | some survey =>
          match w.db.people.find? fun p => p.cons_id == inp.intervieweeId with
          | none => (.error (.jsCrash "cannot read cons_id of undefined"), w)
          | some person =>
            let email := getPrimaryEmail w.db person
            let procResult :=
              if inp.completed ∧ survey.processors.length > 0 then
                runProcessors oracle person email
                  ((inp.fieldValues.lookup "event_id")) survey.processors w
              else (.ok (), w)
            match procResult with
            | (.error e, w1) => (.error e, w1)
            | (.ok _, w1) =>
              let newCall : CallRow :=
                { completed := inp.completed
                  attempted_at := now
                  left_voicemail := inp.leftVoicemail
                  sent_text := inp.sentText
                  reason_not_completed := inp.reasonNotCompleted
                  caller_id := caller.id
                  interviewee_id := assignedCall.interviewee_id
                  call_assignment_id := assignedCall.call_assignment_id }
              (.ok caller, { w1 with db := { w1.db with
                assigned_calls := w1.db.assigned_calls.filter fun r => r.id ≠ assignedCall.id
                calls := w1.db.calls ++ [newCall] } })

/-- The `SubmitCallSurvey` mutation: `authRequired`, then the body inside a
transaction. -/
def submitCallSurvey (oracle : Nat → Bool) (session : Session) (inp : SurveyInput)
    (now : Int) (w : World) : Except AppError UserRow × World :=
  match authRequired session, session.user with
  | .error e, _ => (.error e, w)
  | .ok _, none => (.error (.jsCrash "unreachable: authRequired passed without user"), w)
  | .ok _, some caller => runTransaction w (submitCallSurveyBody oracle caller inp now)

/-! ## The `intervieweeForCallAssignment` resolver (schema.js lines 559–684)

The resolver first deletes every assigned call of the requesting user, loads
the call assignment, computes the UTC offsets in which it is currently between
9am and 9pm local time, loads the interviewee group, and then issues one
candidate query joining phones, addresses and zip codes with two exclusion
subqueries (`limit 1 / first`).  When a candidate is found it re-checks for an
existing assigned call and inserts the new `bsd_assigned_calls` row.  There is
no transaction: the initial delete persists even when a later step throws. -/

/-- The initial `knex('bsd_assigned_calls').where('caller_id', user.id).delete()`. -/
def deleteCallerAssigned (db : Db) (callerId : Nat) : Db :=
  { db with assigned_calls := db.assigned_calls.filter fun r => r.caller_id ≠ callerId }

/-- The UTC offsets whose local hour (modelled as `(nowUtcHour + offset) mod
24`) is at least 9 and below 21.  In development mode `validOffsets` starts as
an alias of `allOffsets`, so the qualifying offsets are appended to the full
list. -/
def validOffsets (development : Bool) (nowUtcHour : Int) : List Int :=
  let allOffsets : List Int := [-10, -9, -8, -7, -6, -5, -4]
  let qualified := allOffsets.filter fun o =>
    decide (9 ≤ (nowUtcHour + o).emod 24) && decide ((nowUtcHour + o).emod 24 < 21)
  if development then allOffsets ++ qualified else qualified

/-- The `previousCallsSubquery`: interviewees successfully canvassed for this
assignment, with unusable numbers, unavailable less than 24h ago (times in
minutes), or not interested in this assignment. -/
def previousCallsExclusion (db : Db) (caId : Nat) (now : Int) : List Nat :=
  (db.calls.filter fun c => decide (
    (c.completed = true ∧ c.call_assignment_id = caId) ∨
    c.reason_not_completed ∈
      [some "WRONG_NUMBER", some "DISCONNECTED_NUMBER", some "OTHER_LANGUAGE"] ∨
    (c.reason_not_completed ∈ [some "NO_PICKUP", some "CALL_BACK"] ∧
      c.attempted_at > now - 24 * 60) ∨
    (c.call_assignment_id = caId ∧ c.reason_not_completed = some "NOT_INTERESTED"))).map
    fun c => c.interviewee_id

/-- The `assignedCallsSubquery`: interviewees of currently assigned calls. -/
def assignedExclusion (db : Db) : List Nat :=
  db.assigned_calls.map fun r => r.interviewee_id

/-- The base table of the candidate query: the BSD constituent group, the
ground-control group, or all of `bsd_people`. -/
def intervieweeBase (db : Db) (group : GcGroupRow) : List Nat :=
  match group.cons_group_id with
  | some cgid =>
    (db.person_bsd_groups.filter fun r => r.cons_group_id == cgid).map fun r => r.cons_id
  | none =>
    match group.query with
    | some q =>
      if q ≠ EVERYONE_GROUP then
        (db.person_gc_groups.filter fun r => r.gc_bsd_group_id == group.id).map
          fun r => r.cons_id
      else db.people.map fun p => p.cons_id
    | none => db.people.map fun p => p.cons_id

/-- The where-clauses of the candidate query on one person: a primary phone, a
primary address whose zip has a valid timezone offset, not on either exclusion
list, and not the caller's own constituent record. -/
def callableFilter (db : Db) (offsets : List Int) (prevExcl assignedIds : List Nat)
    (notCons : Option Nat) (cid : Nat) : Bool :=
  (db.phones.any fun ph => ph.cons_id == cid && ph.is_primary) &&
  (db.addresses.any fun a => a.cons_id == cid && a.is_primary &&
    (db.zip_codes.any fun z => z.zip == a.zip && offsets.contains z.timezone_offset)) &&
  !(prevExcl.contains cid) && !(assignedIds.contains cid) &&
  (match notCons with | some uc => cid != uc | none => true)

/-- The resolver body after the initial delete, acting on the post-delete
database `db1`: load the call assignment, compute the offsets, load the group,
run the single candidate query, re-check for an assigned call, and insert the
new `bsd_assigned_calls` row.  No geographic datum enters any of these
queries: the address join only reads `cons_id`, `is_primary` and `zip`. -/
def intervieweeBody (development : Bool) (user : UserRow) (caId : Nat)
    (nowUtcHour now : Int) (db1 : Db) : Except AppError (Option PersonRow) × Db :=
  match db1.call_assignments.find? fun a => a.id == caId with
  | none => (.error (.jsCrash "cannot read interviewee_group of undefined"), db1)
  | some ca =>
    let offsets := validOffsets development nowUtcHour
    if offsets.isEmpty then (.ok none, db1)
    else
      match db1.gc_groups.find? fun g => g.id == ca.interviewee_group with
      | none => (.error (.jsCrash "cannot read cons_group_id of undefined"), db1)
      | some group =>
        let prevExcl := previousCallsExclusion db1 caId now
        let assignedIds := assignedExclusion db1
        let notCons := (db1.emails.find? fun e => e.email == user.email).map
          fun e => e.cons_id
        match (intervieweeBase db1 group).find?
            (callableFilter db1 offsets prevExcl assignedIds notCons) with
        | none => (.ok none, db1)
        | some cid =>
          match db1.assigned_calls.find? fun r =>
              r.caller_id == user.id && r.call_assignment_id == caId with
          | some ac => (.ok (db1.people.find? fun p => p.cons_id == ac.interviewee_id), db1)
          | none =>
            (.ok (db1.people.find? fun p => p.cons_id == cid),
             { db1 with
                assigned_calls := db1.assigned_calls ++ [⟨db1.next_id, user.id, cid, caId⟩]
                next_id := db1.next_id + 1 })

/-- The `intervieweeForCallAssignment` resolver: the un-transacted delete of
the caller's assigned calls, then the body on the post-delete database. -/
def intervieweeForCallAssignment (development : Bool) (user : UserRow) (caId : Nat)
    (nowUtcHour now : Int) (w : World) : Except AppError (Option PersonRow) × World :=
  let r := intervieweeBody development user caId nowUtcHour now
    (deleteCallerAssigned w.db user.id)
  (r.1, { w with db := r.2 })

/-- Replace every address geometry by `f` of it: the only geographic datum of
the data model. -/
def dbMapGeoms (f : Int → Int) (db : Db) : Db :=
  { db with addresses := db.addresses.map fun a => { a with geom := f a.geom } }

/-- `dbMapGeoms` lifted to the world. -/
def mapGeoms (f : Int → Int) (w : World) : World :=
  { w with db := dbMapGeoms f w.db }

/-! ## Auth-guarded queries (root query fields, schema.js lines 2112–2183) -/

/-- The `listContainer` root query: `adminRequired`, then the shared list
container (modelled by its id 1). -/
def listContainer (session : Session) (w : World) : Except AppError Nat × World :=
  match adminRequired session with
  | .error e => (.error e, w)
  | .ok _ => (.ok 1, w)

/-- The `currentUser` root query: `authRequired`, then the session user. -/
def currentUser (session : Session) (w : World) :
    Except AppError (Option UserRow) × World :=
  match authRequired session with
  | .error e => (.error e, w)
  | .ok _ => (.ok session.user, w)

/-- The `callAssignment` root query: `authRequired`, then a loader lookup of
the call assignment by its local id. -/
def callAssignmentQuery (session : Session) (id : Nat) (w : World) :
    Except AppError (Option CallAssignmentRow) × World :=
  match authRequired session with
  | .error e => (.error e, w)
  | .ok _ => (.ok (w.db.call_assignments.find? fun a => a.id == id), w)

/-- The `fastFwdRequest` root query: `authRequired`, then either a lookup by
request id or a lookup through the event, depending on the decoded global-id
type. -/
def fastFwdRequestQuery (session : Session) (arg : Sum Nat Nat) (w : World) :
    Except AppError (List FastFwdRow) × World :=
  match authRequired session with
  | .error e => (.error e, w)
  | .ok _ =>
    match arg with
    | .inl reqId => (.ok (w.db.fast_fwd_request.filter fun f => f.id == reqId), w)
    | .inr eventId => (.ok (w.db.fast_fwd_request.filter fun f => f.event_id == eventId), w)

/-- The `ChangeUserPassword` mutation: `authRequired`; the CRM credential
check (an invalid current password is a 403), then the CRM password update
(whose failure is a 500). -/
def changeUserPassword (oracle : Nat → Bool) (session : Session) (w : World) :
    Except AppError Unit × World :=
  match authRequired session with
  | .error e => (.error e, w)
  | .ok _ =>
    match BSDClient.apiRequest oracle "checkCredentials" w with
    | (.error _, w1) =>
      (.error (.graphql ⟨403,
        "The current password you entered does not match our records. Please try again."⟩), w1)
    | (.ok _, w1) =>
      match BSDClient.apiRequest oracle "setConstituentPassword" w1 with
      | (.error _, w2) =>
        (.error (.graphql ⟨500, "Something went wrong while changing your password."⟩), w2)
      | (.ok _, w2) => (.ok (), w2)

/-! ## The `nearbyPeople` resolver (event field, schema.js lines 1106–1139)

```js
let maxRadius = 50000; let radius = 1000; let backoff = 1000; let foundPeople = [];
while (foundPeople.length < 500 && radius <= maxRadius) {
  ...query excluding foundPeople, st_dwithin(geom, event.geom, radius), limit 500...
  foundPeople = foundPeople.concat(people)
  radius += backoff;
  if (radius === 15000) backoff = 5000;
}
return foundPeople.slice(0, 500)
```
-/

/-- `st_dwithin(g1, g2, radius)` on the one-dimensional geometry model. -/
def stDwithin (g1 g2 : Int) (radius : Nat) : Bool :=
  (g1 - g2).natAbs ≤ radius

/-- The join rows of one `nearbyPeople` query: `bsd_addresses` joined with
`bsd_people`, `bsd_emails` and `bsd_subscriptions` on `cons_id`, left-joined
with `communications` (`whereNull` keeps people with none), filtered on
primary address/e-mail, subscribed, not already found, and within `radius` of
the event.  Each row carries the e-mail (the `distinct` key) and the person. -/
def nearbyRows (db : Db) (eventGeom : Int) (radius : Nat) (excluded : List Nat) :
    List (String × PersonRow) :=
  db.addresses.flatMap fun a =>
    db.people.flatMap fun p =>
      db.emails.flatMap fun e =>
        db.subscriptions.flatMap fun s =>
          if a.cons_id = p.cons_id ∧ e.cons_id = p.cons_id ∧ s.cons_id = p.cons_id ∧
             a.is_primary = true ∧ e.is_primary = true ∧ s.isunsub = false ∧
             p.cons_id ∉ excluded ∧
             stDwithin a.geom eventGeom radius = true ∧
             (db.communications.filter fun c => c.person_id == p.cons_id) = []
          then [(e.email, p)] else []

/-- `distinct('bsd_emails.email')`: keep the first row for each e-mail value
(`seen` accumulates the e-mails already emitted). -/
def distinctByEmail : List (String × PersonRow) → List String → List (String × PersonRow)
  | [], _ => []
  | (em, p) :: rest, seen =>
    if em ∈ seen then distinctByEmail rest seen
    else (em, p) :: distinctByEmail rest (em :: seen)

/-- One `nearbyPeople` query: the distinct join rows, projected to
`bsd_people.*`, `limit 500`. -/
def nearbyQuery (db : Db) (eventGeom : Int) (radius : Nat) (excluded : List Nat) :
    List PersonRow :=
  ((distinctByEmail (nearbyRows db eventGeom radius excluded) []).map Prod.snd).take 500

/-- The `while` loop of `nearbyPeople`: the `foundPeople` accumulator when the
loop exits.  `hb` records that the backoff is positive, which is what makes
the JavaScript loop terminate. -/
def nearbyLoopFound (db : Db) (eventGeom : Int) (radius backoff : Nat) (hb : 0 < backoff)
    (found : List PersonRow) : List PersonRow :=
  if h : found.length < 500 ∧ radius ≤ 50000 then
    nearbyLoopFound db eventGeom (radius + backoff)
      (if radius + backoff = 15000 then 5000 else backoff)
      (by split <;> omega)
      (found ++ nearbyQuery db eventGeom radius (found.map fun p => p.cons_id))
  else found
  termination_by 50001 - radius
  decreasing_by
    exact Nat.sub_lt_sub_left (Nat.lt_succ_of_le h.2) (Nat.lt_add_of_pos_right hb)

/-- The instrumentation of the same loop: the radii at which it issues its
successive queries (the loop state evolves exactly as in `nearbyLoopFound`). -/
def nearbyLoopRadii (db : Db) (eventGeom : Int) (radius backoff : Nat) (hb : 0 < backoff)
    (found : List PersonRow) : List Nat :=
  if h : found.length < 500 ∧ radius ≤ 50000 then
    radius :: nearbyLoopRadii db eventGeom (radius + backoff)
      (if radius + backoff = 15000 then 5000 else backoff)
      (by split <;> omega)
      (found ++ nearbyQuery db eventGeom radius (found.map fun p => p.cons_id))
  else []
  termination_by 50001 - radius
  decreasing_by
    exact Nat.sub_lt_sub_left (Nat.lt_succ_of_le h.2) (Nat.lt_add_of_pos_right hb)

/-- Positivity of the initial backoff, shared by every entry call. -/
def nearbyStartPos : 0 < 1000 := by norm_num

/-- The `foundPeople` accumulator when the `nearbyPeople` loop exits. -/
def nearbyFound (db : Db) (event : EventRow) : List PersonRow :=
  nearbyLoopFound db event.geom 1000 1000 nearbyStartPos []

/-- The `nearbyPeople` resolver: run the loop from radius 1000, backoff 1000,
and return at most 500 people (`slice(0, 500)`). -/
def nearbyPeople (db : Db) (event : EventRow) : List PersonRow :=
  (nearbyFound db event).take 500

/-- The radii of the successive queries issued by `nearbyPeople`. -/
def nearbyPeopleRadii (db : Db) (event : EventRow) : List Nat :=
  nearbyLoopRadii db event.geom 1000 1000 nearbyStartPos []

/-- The radius/backoff schedule of the loop, independent of the database:
the radii the loop would visit before exceeding the maximum radius. -/
def scheduleFrom (radius backoff : Nat) (hb : 0 < backoff) : List Nat :=
  if h : radius ≤ 50000 then
    radius :: scheduleFrom (radius + backoff)
      (if radius + backoff = 15000 then 5000 else backoff)
      (by split <;> omega)
  else []
  termination_by 50001 - radius
  decreasing_by
    exact Nat.sub_lt_sub_left (Nat.lt_succ_of_le h) (Nat.lt_add_of_pos_right hb)

/-- The full radius schedule: 1000 up to 15000 in steps of 1000, then up to
50000 in steps of 5000. -/
def radiusSchedule : List Nat :=
  [1000, 2000, 3000, 4000, 5000, 6000, 7000, 8000, 9000, 10000, 11000, 12000,
   13000, 14000, 15000, 20000, 25000, 30000, 35000, 40000, 45000, 50000]

/-! ## Concrete fixtures used by witnesses and counterexamples -/

/-- A small database: person 2 has a non-primary and a primary e-mail, a
primary phone and a primary address whose zip is in the `zip_codes` table;
user 7 holds assigned call 1 for interviewee 2 on call assignment 5, whose
survey 10 runs the form-submitter processor. -/
def fixtureDb : Db :=
  { emails := [⟨1, "other@example.com", true⟩, ⟨2, "first@example.com", false⟩,
               ⟨2, "primary@example.com", true⟩],
    phones := [⟨2, "5551234567", true⟩],
    addresses := [⟨2, "05401", true, 0⟩],
    zip_codes := [⟨"05401", -5⟩],
    people := [⟨2⟩],
    subscriptions := [⟨2, false⟩],
    assigned_calls := [⟨1, 7, 2, 5⟩],
    call_assignments := [⟨5, 10, 20⟩],
    gc_surveys := [⟨10, 100, ["bsd-form-submitter"]⟩],
    gc_groups := [⟨20, none, none⟩],
    next_id := 50 }

/-- A concrete event at the origin of the geometry model. -/
def fixtureEvent : EventRow := ⟨1, 1, false, 0⟩

/-- A logged-in user without the admin flag. -/
def fixtureNonAdmin : UserRow := ⟨7, "vol@example.com", false, false⟩

/-- An admin who is not a superuser. -/
def fixtureAdmin : UserRow := ⟨8, "admin@example.com", true, false⟩

/-- A superuser admin. -/
def fixtureSuper : UserRow := ⟨9, "root@example.com", true, true⟩

/-- The fixture world: the fixture database and no effects yet. -/
def fixtureWorld : World := { db := fixtureDb }

/-- A concrete survey submission matching fixture assigned call 1. -/
def fixtureSurveyInput : SurveyInput := ⟨5, 2, true, none, none, none, []⟩

end GroundControl

namespace GroundControl

/-! ## Helper lemmas -/

/-- A successful `find?` splits the list at the first satisfying element. -/
theorem find?_decomp {α} (p : α → Bool) :
    ∀ {l : List α} {a : α}, l.find? p = some a →
      ∃ pre post, l = pre ++ a :: post ∧ p a = true ∧ ∀ x ∈ pre, p x = false := by
  intro l
  induction l with
  | nil => intro a h; simp [List.find?] at h
  | cons b t ih =>
    intro a h
    cases hb : p b with
    | true =>
      rw [List.find?_cons_of_pos _ hb] at h
      cases h
      exact ⟨[], t, rfl, hb, by simp⟩
    | false =>
      rw [List.find?_cons_of_neg _ (by simp [hb])] at h
      obtain ⟨pre, post, hl, hpa, hpre⟩ := ih h
      subst hl
      refine ⟨b :: pre, post, rfl, hpa, ?_⟩
      intro x hx
      rcases List.mem_cons.mp hx with rfl | hx
      · exact hb
      · exact hpre x hx

/-- Two distinct elements of a list force its length to be at least 2. -/
theorem two_mem_le_length {α} [DecidableEq α] {l : List α} {x y : α}
    (hxy : x ≠ y) (hx : x ∈ l) (hy : y ∈ l) : 2 ≤ l.length := by
  have hyx : y ∈ l.erase x := List.mem_erase_of_ne (Ne.symm hxy) |>.mpr hy
  have h1 : 0 < (l.erase x).length := List.length_pos_of_mem hyx
  have h2 : (l.erase x).length = l.length - 1 := List.length_erase_of_mem hx
  omega

/-- Every row produced by one `nearbyPeople` query step comes with a primary
e-mail row of its person, the person is in `bsd_people`, its primary address is
within the radius, and it is not on the exclusion list. -/
theorem nearbyRows_mem {db : Db} {g : Int} {radius : Nat} {excluded : List Nat}
    {em : String} {p : PersonRow} (h : (em, p) ∈ nearbyRows db g radius excluded) :
    p ∈ db.people ∧ p.cons_id ∉ excluded ∧
      ∃ erow ∈ db.emails, erow.is_primary = true ∧ erow.cons_id = p.cons_id ∧
        erow.email = em := by
  unfold nearbyRows at h
  simp only [List.mem_flatMap] at h
  obtain ⟨a, -, p', hp', e, he, s, -, hmem⟩ := h
  split at hmem
  case isTrue hc =>
    simp only [List.mem_singleton, Prod.mk.injEq] at hmem
    obtain ⟨rfl, rfl⟩ := hmem
    exact ⟨hp', hc.2.2.2.2.2.2.1, e, he, hc.2.2.2.2.1, hc.2.1, rfl⟩
  case isFalse => simp at hmem

/-- `distinctByEmail` only keeps rows of its input. -/
theorem distinctByEmail_subset :
    ∀ (rows : List (String × PersonRow)) (seen : List String),
      ∀ x ∈ distinctByEmail rows seen, x ∈ rows := by
  intro rows
  induction rows with
  | nil => intro seen x hx; simp [distinctByEmail] at hx
  | cons hd tl ih =>
    intro seen x hx
    obtain ⟨em, p⟩ := hd
    simp only [distinctByEmail] at hx
    split at hx
    · exact List.mem_cons_of_mem _ (ih seen x hx)
    · rcases List.mem_cons.mp hx with rfl | hx'
      · exact List.mem_cons_self _ _
      · exact List.mem_cons_of_mem _ (ih _ x hx')

/-- The rows `distinctByEmail` keeps have pairwise distinct e-mails, and none
of them carries an e-mail already seen. -/
theorem distinctByEmail_pairwise :
    ∀ (rows : List (String × PersonRow)) (seen : List String),
      ((distinctByEmail rows seen).Pairwise fun a b => a.1 ≠ b.1) ∧
        ∀ x ∈ distinctByEmail rows seen, x.1 ∉ seen := by
  intro rows
  induction rows with
  | nil => intro seen; simp [distinctByEmail]
  | cons hd tl ih =>
    intro seen
    obtain ⟨em, p⟩ := hd
    simp only [distinctByEmail]
    split
    case isTrue hseen => exact ih seen
    case isFalse hseen =>
      have htail := ih (em :: seen)
      refine ⟨List.Pairwise.cons ?_ htail.1, ?_⟩
      · intro x hx
        have := htail.2 x hx
        simp only [List.mem_cons, not_or] at this
        exact fun hcontra => this.1 hcontra.symm
      · intro x hx
        rcases List.mem_cons.mp hx with rfl | hx'
        · exact hseen
        · have := htail.2 x hx'
          simp only [List.mem_cons, not_or] at this
          exact this.2

/-- People returned by one `nearbyPeople` query step are not on the exclusion
list that was passed to it. -/
theorem nearbyQuery_not_excluded {db : Db} {g : Int} {radius : Nat}
    {excluded : List Nat} {p : PersonRow} (h : p ∈ nearbyQuery db g radius excluded) :
    p.cons_id ∉ excluded := by
  unfold nearbyQuery at h
  have h' := (List.take_sublist _ _).subset h
  obtain ⟨⟨em, q⟩, hmem, rfl⟩ := List.mem_map.mp h'
  exact (nearbyRows_mem (distinctByEmail_subset _ _ _ hmem)).2.1

/-- Under the invariant that a person has at most one primary e-mail row, the
people returned by one `nearbyPeople` query step have pairwise distinct
`cons_id`s. -/
theorem nearbyQuery_nodup {db : Db} (g : Int) (radius : Nat) (excluded : List Nat)
    (h_em : ∀ q ∈ db.people,
      (db.emails.filter fun e => e.is_primary && e.cons_id == q.cons_id).length ≤ 1) :
    ((nearbyQuery db g radius excluded).map fun p => p.cons_id).Nodup := by
  unfold nearbyQuery
  rw [List.map_take, List.map_map]
  have hpair : (distinctByEmail (nearbyRows db g radius excluded) []).Pairwise
      fun a b => a.2.cons_id ≠ b.2.cons_id := by
    refine List.Pairwise.imp_of_mem ?_
      (distinctByEmail_pairwise (nearbyRows db g radius excluded) []).1
    intro a b ha hb hne hcontra
    obtain ⟨aem, ap⟩ := a
    obtain ⟨bem, bp⟩ := b
    simp only at hne hcontra
    obtain ⟨hap, -, ea, hea, heap, heac, heaem⟩ :=
      nearbyRows_mem (distinctByEmail_subset _ _ _ ha)
    obtain ⟨-, -, eb, heb, hebp, hebc, hebem⟩ :=
      nearbyRows_mem (distinctByEmail_subset _ _ _ hb)
    have heane : ea ≠ eb := by
      intro hcontra2
      exact hne (by rw [← heaem, ← hebem, hcontra2])
    have hfa : ea ∈ db.emails.filter fun e => e.is_primary && e.cons_id == ap.cons_id :=
      List.mem_filter.mpr ⟨hea, by simp [heap, heac]⟩
    have hfb : eb ∈ db.emails.filter fun e => e.is_primary && e.cons_id == ap.cons_id :=
      List.mem_filter.mpr ⟨heb, by simp [hebp, hebc, hcontra]⟩
    have := two_mem_le_length heane hfa hfb
    have := h_em ap hap
    omega
  refine List.Nodup.sublist (List.take_sublist _ _) ?_
  exact List.Pairwise.map _ (fun a b hab => hab) hpair

/-- The query trace of the `nearbyPeople` loop is an initial segment of the
radius schedule starting at the loop's current radius and backoff. -/
theorem nearbyLoop_trace (db : Db) (g : Int) (radius backoff : Nat) (hb : 0 < backoff)
    (found : List PersonRow) :
    ∃ k, nearbyLoopRadii db g radius backoff hb found =
      (scheduleFrom radius backoff hb).take k := by
  by_cases h : found.length < 500 ∧ radius ≤ 50000
  · rw [nearbyLoopRadii, dif_pos h, scheduleFrom, dif_pos h.2]
    obtain ⟨k, hk⟩ := nearbyLoop_trace db g (radius + backoff)
      (if radius + backoff = 15000 then 5000 else backoff) (by split <;> omega)
      (found ++ nearbyQuery db g radius (found.map fun p => p.cons_id))
    exact ⟨k + 1, by simp [hk]⟩
  · rw [nearbyLoopRadii, dif_neg h]
    exact ⟨0, by simp⟩
  termination_by 50001 - radius
  decreasing_by
    exact Nat.sub_lt_sub_left (Nat.lt_succ_of_le h.2) (Nat.lt_add_of_pos_right hb)

/-- The `nearbyPeople` loop exits only because 500 people were accumulated or
because the radius ran through the entire remaining schedule. -/
theorem nearbyLoop_stop (db : Db) (g : Int) (radius backoff : Nat) (hb : 0 < backoff)
    (found : List PersonRow) :
    500 ≤ (nearbyLoopFound db g radius backoff hb found).length ∨
      nearbyLoopRadii db g radius backoff hb found = scheduleFrom radius backoff hb := by
  by_cases h : found.length < 500 ∧ radius ≤ 50000
  · rw [nearbyLoopFound, dif_pos h, nearbyLoopRadii, dif_pos h]
    rcases nearbyLoop_stop db g (radius + backoff)
        (if radius + backoff = 15000 then 5000 else backoff) (by split <;> omega)
        (found ++ nearbyQuery db g radius (found.map fun p => p.cons_id)) with hl | hr
    · exact Or.inl hl
    · right
      rw [scheduleFrom, dif_pos h.2]
      simp [hr]
  · rw [nearbyLoopFound, dif_neg h, nearbyLoopRadii, dif_neg h]
    rcases Nat.lt_or_ge found.length 500 with hlen | hlen
    · right
      have hrad : ¬ radius ≤ 50000 := fun hc => h ⟨hlen, hc⟩
      rw [scheduleFrom, dif_neg hrad]
    · exact Or.inl hlen
  termination_by 50001 - radius
  decreasing_by
    exact Nat.sub_lt_sub_left (Nat.lt_succ_of_le h.2) (Nat.lt_add_of_pos_right hb)

/-- Under the unique-primary-e-mail invariant, the accumulated people of the
`nearbyPeople` loop have pairwise distinct `cons_id`s: each query excludes
everyone already found. -/
theorem nearbyLoop_nodup {db : Db} (g : Int)
    (h_em : ∀ q ∈ db.people,
      (db.emails.filter fun e => e.is_primary && e.cons_id == q.cons_id).length ≤ 1)
    (radius backoff : Nat) (hb : 0 < backoff) (found : List PersonRow)
    (hfound : (found.map fun p => p.cons_id).Nodup) :
    ((nearbyLoopFound db g radius backoff hb found).map fun p => p.cons_id).Nodup := by
  by_cases h : found.length < 500 ∧ radius ≤ 50000
  · rw [nearbyLoopFound, dif_pos h]
    refine nearbyLoop_nodup g h_em (radius + backoff)
      (if radius + backoff = 15000 then 5000 else backoff) (by split <;> omega)
      (found ++ nearbyQuery db g radius (found.map fun p => p.cons_id)) ?_
    rw [List.map_append, List.nodup_append]
    refine ⟨hfound, nearbyQuery_nodup g radius _ h_em, ?_⟩
    intro c hc hc'
    obtain ⟨p, hp, rfl⟩ := List.mem_map.mp hc'
    exact nearbyQuery_not_excluded hp hc
  · rw [nearbyLoopFound, dif_neg h]
    exact hfound
  termination_by 50001 - radius
  decreasing_by
    exact Nat.sub_lt_sub_left (Nat.lt_succ_of_le h.2) (Nat.lt_add_of_pos_right hb)

/-- The schedule starting from radius 1000, backoff 1000 is the full radius
schedule: 1000-steps up to 15000, then 5000-steps up to 50000. -/
theorem scheduleFrom_start (hb : 0 < 1000) : scheduleFrom 1000 1000 hb = radiusSchedule := by
  simp [scheduleFrom, radiusSchedule]

/-! ## Claim theorems -/

/-- **C7.** `getPrimaryEmail`, `getPrimaryPhone` and `getPrimaryAddress`
return data only from the first row whose `is_primary` flag is true and whose
`cons_id` equals the person's `cons_id`; when no such row exists the e-mail
and phone helpers return `null` and the address helper returns no row. -/
theorem C7_primary_contact_helpers (db : Db) (person : PersonRow) :
    (∀ e, getPrimaryEmail db person = some e →
      ∃ r pre post, db.emails = pre ++ r :: post ∧ r.is_primary = true ∧
        r.cons_id = person.cons_id ∧ r.email = e ∧
        ∀ r' ∈ pre, ¬(r'.is_primary = true ∧ r'.cons_id = person.cons_id)) ∧
    ((∀ r ∈ db.emails, ¬(r.is_primary = true ∧ r.cons_id = person.cons_id)) →
      getPrimaryEmail db person = none) ∧
    (∀ ph, getPrimaryPhone db person = some ph →
      ∃ r pre post, db.phones = pre ++ r :: post ∧ r.is_primary = true ∧
        r.cons_id = person.cons_id ∧ r.phone = ph ∧
        ∀ r' ∈ pre, ¬(r'.is_primary = true ∧ r'.cons_id = person.cons_id)) ∧
    ((∀ r ∈ db.phones, ¬(r.is_primary = true ∧ r.cons_id = person.cons_id)) →
      getPrimaryPhone db person = none) ∧
    (∀ a, getPrimaryAddress db person = some a →
      a.is_primary = true ∧ a.cons_id = person.cons_id ∧
      ∃ pre post, db.addresses = pre ++ a :: post ∧
        ∀ r' ∈ pre, ¬(r'.is_primary = true ∧ r'.cons_id = person.cons_id)) ∧
    ((∀ r ∈ db.addresses, ¬(r.is_primary = true ∧ r.cons_id = person.cons_id)) →
      getPrimaryAddress db person = none) := by
  refine ⟨?_, ?_, ?_, ?_, ?_, ?_⟩
  · intro e he
    unfold getPrimaryEmail at he
    obtain ⟨r, hfind, hemail⟩ := Option.map_eq_some'.mp he
    obtain ⟨pre, post, hl, hp, hpre⟩ := find?_decomp _ hfind
    refine ⟨r, pre, post, hl, ?_, ?_, hemail, ?_⟩
    · simpa using (Bool.and_eq_true _ _ |>.mp hp).1
    · simpa using (Bool.and_eq_true _ _ |>.mp hp).2
    · intro r' hr' hcontra
      have := hpre r' hr'
      simp [hcontra.1, hcontra.2] at this
  · intro hnone
    unfold getPrimaryEmail
    rw [List.find?_eq_none.mpr]
    · rfl
    · intro r hr
      have := hnone r hr
      simp only [Bool.and_eq_true, beq_iff_eq]
      intro hcontra
      exact this ⟨hcontra.1, hcontra.2⟩
  · intro ph hph
    unfold getPrimaryPhone at hph
    obtain ⟨r, hfind, hphone⟩ := Option.map_eq_some'.mp hph
    obtain ⟨pre, post, hl, hp, hpre⟩ := find?_decomp _ hfind
    refine ⟨r, pre, post, hl, ?_, ?_, hphone, ?_⟩
    · simpa using (Bool.and_eq_true _ _ |>.mp hp).1
    · simpa using (Bool.and_eq_true _ _ |>.mp hp).2
    · intro r' hr' hcontra
      have := hpre r' hr'
      simp [hcontra.1, hcontra.2] at this
  · intro hnone
    unfold getPrimaryPhone
    rw [List.find?_eq_none.mpr]
    · rfl
    · intro r hr
      have := hnone r hr
      simp only [Bool.and_eq_true, beq_iff_eq]
      intro hcontra
      exact this ⟨hcontra.1, hcontra.2⟩
  · intro a ha
    unfold getPrimaryAddress at ha
    obtain ⟨pre, post, hl, hp, hpre⟩ := find?_decomp _ ha
    refine ⟨?_, ?_, pre, post, hl, ?_⟩
    · simpa using (Bool.and_eq_true _ _ |>.mp hp).1
    · simpa using (Bool.and_eq_true _ _ |>.mp hp).2
    · intro r' hr' hcontra
      have := hpre r' hr'
      simp [hcontra.1, hcontra.2] at this
  · intro hnone
    unfold getPrimaryAddress
    rw [List.find?_eq_none.mpr]
    · intro r hr
      have := hnone r hr
      simp only [Bool.and_eq_true, beq_iff_eq]
      intro hcontra
      exact this ⟨hcontra.1, hcontra.2⟩

/-- **C7 witness.** On the concrete fixture database, the e-mail helper picks
person 2's primary e-mail (skipping the earlier non-primary row), and the
helpers return nothing for a person with no matching rows. -/
theorem C7_primary_contact_helpers_witness :
    (∃ r pre post, fixtureDb.emails = pre ++ r :: post ∧ r.is_primary = true ∧
      r.cons_id = (PersonRow.mk 2).cons_id ∧ r.email = "primary@example.com" ∧
      ∀ r' ∈ pre, ¬(r'.is_primary = true ∧ r'.cons_id = (PersonRow.mk 2).cons_id)) ∧
    getPrimaryPhone fixtureDb ⟨99⟩ = none :=
  ⟨(C7_primary_contact_helpers fixtureDb ⟨2⟩).1 "primary@example.com" (by decide),
   (C7_primary_contact_helpers fixtureDb ⟨99⟩).2.2.2.1 (by decide)⟩

/-- **C4.** The `nearbyPeople` radius search terminates and returns at most
500 people; its query radii form an initial segment of the schedule that
starts at 1000, grows by 1000 per step until 15000, then by 5000 per step up
to the maximum 50000; the loop exits only because at least 500 people were
accumulated or the radius exceeded the maximum; and people already found are
excluded from later, wider queries (so, given the unique-primary-e-mail
invariant, the accumulated people are pairwise distinct). -/
theorem C4_nearbyPeople_radius_search (db : Db) (event : EventRow)
    (h_em : ∀ q ∈ db.people,
      (db.emails.filter fun e => e.is_primary && e.cons_id == q.cons_id).length ≤ 1) :
    (nearbyPeople db event).length ≤ 500 ∧
    nearbyPeopleRadii db event = radiusSchedule.take (nearbyPeopleRadii db event).length ∧
    (500 ≤ (nearbyFound db event).length ∨ nearbyPeopleRadii db event = radiusSchedule) ∧
    ((nearbyFound db event).map fun p => p.cons_id).Nodup ∧
    (∀ radius excluded, ∀ p ∈ nearbyQuery db event.geom radius excluded,
      p.cons_id ∉ excluded) := by
  refine ⟨?_, ?_, ?_, ?_, ?_⟩
  · exact List.length_take_le 500 (nearbyFound db event)
  · obtain ⟨k, hk⟩ := nearbyLoop_trace db event.geom 1000 1000 nearbyStartPos []
    have hk' : nearbyPeopleRadii db event = radiusSchedule.take k := by
      unfold nearbyPeopleRadii
      rw [hk, scheduleFrom_start]
    rw [hk', List.length_take, List.take_eq_take]
    omega
  · rcases nearbyLoop_stop db event.geom 1000 1000 nearbyStartPos [] with hl | hr
    · exact Or.inl hl
    · right
      unfold nearbyPeopleRadii
      rw [hr, scheduleFrom_start]
  · exact nearbyLoop_nodup event.geom h_em 1000 1000 nearbyStartPos [] (by simp)
  · intro radius excluded p hp
    exact nearbyQuery_not_excluded hp

/-- **C4 witness.** The radius-search properties hold on the concrete fixture
database and event. -/
theorem C4_nearbyPeople_radius_search_witness :
    (nearbyPeople fixtureDb fixtureEvent).length ≤ 500 ∧
      nearbyPeopleRadii fixtureDb fixtureEvent =
        radiusSchedule.take (nearbyPeopleRadii fixtureDb fixtureEvent).length := by
  have h := C4_nearbyPeople_radius_search fixtureDb fixtureEvent (by decide)
  exact ⟨h.1, h.2.1⟩

/-- The deletion-notification e-mails never touch the database. -/
theorem deletionEmails_db (db : Db) (ids : List Nat) (adminEmail : String) (w : World) :
    (deletionEmails db ids adminEmail w).db = w.db := by
  unfold deletionEmails Mailgun.send
  generalize (db.events.filter fun ev => ev.event_id ∈ ids).map
    (fun ev => ev.creator_cons_id) = hosts
  induction hosts generalizing w with
  | nil => rfl
  | cons h t ih =>
    simp only [List.foldl_cons]
    split <;> exact ih _

/-- **C3.** For every session whose user lacks the admin flag, each
admin-gated operation — the `listContainer` root query and the `editEvents`,
`reviewEvents`, `deleteEvents`, `emailHostAttendees`, `createAdminEventEmail`
and `createCallAssignment` mutations — fails with the 403 `GraphQLError` and
leaves the world (database, e-mails, CRM calls) unchanged. -/
theorem C3_admin_gate_403 (session : Session) (u : UserRow) (hu : session.user = some u)
    (hadmin : u.is_admin = false) (w : World) (oracle : Nat → Bool)
    (inputs : List EventInput) (ids : List Nat) (pendingReview : Bool)
    (hostMessage : String) (target : EmailTarget) (toolPassword adminEmail : String)
    (recipients : List Nat) (eventId : Nat) (now : Int) (surveyId : Nat)
    (processors : List String) (groupArg : GroupArg) :
    listContainer session w = (.error notAuthorizedError, w) ∧
    editEvents oracle session inputs w = (.error notAuthorizedError, w) ∧
    reviewEvents session ids pendingReview w = (.error notAuthorizedError, w) ∧
    deleteEvents oracle session ids hostMessage w = (.error notAuthorizedError, w) ∧
    emailHostAttendees session ids target w = (.error notAuthorizedError, w) ∧
    createAdminEventEmail session toolPassword adminEmail recipients eventId now w =
      (.error notAuthorizedError, w) ∧
    createCallAssignment session surveyId processors groupArg w =
      (.error notAuthorizedError, w) ∧
    notAuthorizedError = .graphql ⟨403, "You are not authorized to access that resource."⟩ := by
  have hreq : adminRequired session = .error notAuthorizedError := by
    simp [adminRequired, authRequired, hu, hadmin, notAuthorizedError]
  refine ⟨?_, ?_, ?_, ?_, ?_, ?_, ?_, rfl⟩ <;>
    simp [listContainer, editEvents, reviewEvents, deleteEvents, emailHostAttendees,
      createAdminEventEmail, createCallAssignment, hreq, hu]

/-- **C3 witness.** A concrete non-admin session is rejected with the 403
error by `listContainer` and by `deleteEvents`, with the world unchanged. -/
theorem C3_admin_gate_403_witness :
    listContainer ⟨some fixtureNonAdmin⟩ fixtureWorld =
      (.error notAuthorizedError, fixtureWorld) ∧
    deleteEvents (fun _ => true) ⟨some fixtureNonAdmin⟩ [1, 2] "" fixtureWorld =
      (.error notAuthorizedError, fixtureWorld) := by
  have h := C3_admin_gate_403 ⟨some fixtureNonAdmin⟩ fixtureNonAdmin rfl rfl fixtureWorld
    (fun _ => true) [] [1, 2] false "" .host "" "" [] 0 0 0 [] (Sum.inl 0)
  exact ⟨h.1, h.2.2.2.1⟩

/-- **C8.** For every session without a logged-in user, each operation guarded
by `authRequired` — the `currentUser`, `callAssignment` and `fastFwdRequest`
queries and the `submitCallSurvey` and `changeUserPassword` mutations — throws
the `GraphQLError` whose JSON-serialized message carries status 401. -/
theorem C8_auth_required_401 (session : Session) (hu : session.user = none)
    (w : World) (oracle : Nat → Bool) (id : Nat) (arg : Sum Nat Nat)
    (inp : SurveyInput) (now : Int) :
    currentUser session w = (.error loginRequiredError, w) ∧
    callAssignmentQuery session id w = (.error loginRequiredError, w) ∧
    fastFwdRequestQuery session arg w = (.error loginRequiredError, w) ∧
    submitCallSurvey oracle session inp now w = (.error loginRequiredError, w) ∧
    changeUserPassword oracle session w = (.error loginRequiredError, w) ∧
    loginRequiredError.message =
      "\x7b\"status\":401,\"message\":\"You must login to access that resource.\"\x7d" ∧
    strContains loginRequiredError.message "\"status\":401" := by
  have hreq : authRequired session = .error loginRequiredError := by
    simp [authRequired, hu, loginRequiredError]
  refine ⟨?_, ?_, ?_, ?_, ?_, ?_, ?_⟩
  · simp [currentUser, hreq]
  · simp [callAssignmentQuery, hreq]
  · simp [fastFwdRequestQuery, hreq]
  · simp [submitCallSurvey, hreq, hu]
  · simp [changeUserPassword, hreq]
  · rfl
  · exact ⟨"\x7b", ",\"message\":\"You must login to access that resource.\"\x7d", by rfl⟩

/-- **C8 witness.** The logged-out session is rejected by `currentUser` and
by `submitCallSurvey` with the 401 error, whose message contains status 401. -/
theorem C8_auth_required_401_witness :
    currentUser ⟨none⟩ fixtureWorld = (.error loginRequiredError, fixtureWorld) ∧
    submitCallSurvey (fun _ => false) ⟨none⟩ fixtureSurveyInput 0 fixtureWorld =
      (.error loginRequiredError, fixtureWorld) ∧
    strContains loginRequiredError.message "\"status\":401" := by
  have h := C8_auth_required_401 ⟨none⟩ rfl fixtureWorld (fun _ => false) 0 (Sum.inl 0)
    fixtureSurveyInput 0
  exact ⟨h.1, h.2.2.2.1, h.2.2.2.2.2.2⟩

/-- **C9.** In `DeleteEvents`, an admin who is not a superuser and supplies an
id list whose length is not 1 receives a 403 `GraphQLError` with the world
untouched (no deletion, no e-mail, no CRM call); a superuser deletes any
number of events in one call. -/
theorem C9_deleteEvents_superuser_gate (session : Session) (u : UserRow)
    (hu : session.user = some u) (hadmin : u.is_admin = true)
    (w : World) (oracle : Nat → Bool) (ids : List Nat) (hostMessage : String) :
    (u.is_superuser = false → ids.length ≠ 1 →
      deleteEvents oracle session ids hostMessage w =
        (.error (.graphql
          ⟨403, "Your account is only authorized to delete one event at a time."⟩), w)) ∧
    (u.is_superuser = true → oracle w.crmCount = true →
      ∃ w', deleteEvents oracle session ids hostMessage w = (.ok ids, w') ∧
        w'.db.events = w.db.events.filter fun ev => ev.event_id ∉ ids) := by
  have hreq : adminRequired session = .ok () := by
    simp [adminRequired, authRequired, hu, hadmin]
  constructor
  · intro hsup hlen
    simp [deleteEvents, hreq, hu, hsup, hlen]
  · intro hsup horacle
    simp only [deleteEvents, hreq, hu]
    rw [if_neg (by simp [hsup])]
    simp only [BSDClient.apiRequest, horacle, if_true]
    refine ⟨_, rfl, ?_⟩
    split
    · simp [markEventsReviewed, deletionEmails_db, BSDClient.apiRequest]
    · simp [markEventsReviewed, BSDClient.apiRequest]

/-- **C9 witness.** Concretely: the non-superuser admin passing two ids gets
the 403 and nothing happens; the superuser passing the same two ids succeeds
and both events are removed. -/
theorem C9_deleteEvents_superuser_gate_witness :
    deleteEvents (fun _ => true) ⟨some fixtureAdmin⟩ [1, 2] "" fixtureWorld =
      (.error (.graphql
        ⟨403, "Your account is only authorized to delete one event at a time."⟩),
       fixtureWorld) ∧
    ∃ w', deleteEvents (fun _ => true) ⟨some fixtureSuper⟩ [1, 2] "" fixtureWorld =
      (.ok [1, 2], w') ∧
      w'.db.events = fixtureWorld.db.events.filter fun ev => ev.event_id ∉ [1, 2] := by
  refine ⟨?_, ?_⟩
  · exact (C9_deleteEvents_superuser_gate ⟨some fixtureAdmin⟩ fixtureAdmin rfl rfl
      fixtureWorld (fun _ => true) [1, 2] "").1 rfl (by decide)
  · exact (C9_deleteEvents_superuser_gate ⟨some fixtureSuper⟩ fixtureSuper rfl rfl
      fixtureWorld (fun _ => true) [1, 2] "").2 rfl rfl

/-- The processor loop of `SubmitCallSurvey` never throws and never writes the
database, as long as the person has a primary address (the only crash path is
the RSVP processor reading `.zip` of a missing address); this holds for every
CRM failure oracle because the CRM is only reached through
`noFailApiRequest`. -/
theorem runProcessors_ok (oracle : Nat → Bool) (person : PersonRow)
    (email : Option String) (evf : Option String) :
    ∀ (procs : List String) (w : World), (getPrimaryAddress w.db person).isSome →
      ∃ w', runProcessors oracle person email evf procs w = (.ok (), w') ∧
        w'.db = w.db := by
  intro procs
  induction procs with
  | nil => intro w _; exact ⟨w, rfl, rfl⟩
  | cons p rest ih =>
    intro w haddr
    simp only [runProcessors]
    by_cases hp : p = "bsd-event-rsvper"
    · rw [if_pos hp]
      match evf with
      | none => exact ih w haddr
      | some s =>
        obtain ⟨a, ha⟩ := Option.isSome_iff_exists.mp haddr
        rw [ha]
        obtain ⟨w', hw', hdb⟩ := ih (BSDClient.noFailApiRequest oracle "addRSVPToEvent" w) haddr
        exact ⟨w', hw', hdb⟩
    · rw [if_neg hp]
      by_cases hq : p = "bsd-form-submitter"
      · rw [if_pos hq]
        match email with
        | none => exact ih w haddr
        | some e =>
          obtain ⟨w', hw', hdb⟩ := ih (BSDClient.noFailApiRequest oracle "processSignup" w) haddr
          exact ⟨w', hw', hdb⟩
      · rw [if_neg hq]
        exact ih w haddr

/-- When all the checks of `SubmitCallSurvey` pass and the referenced rows
exist, the mutation succeeds for every CRM oracle: it deletes exactly the
matching assigned call and appends exactly one `bsd_calls` row, leaving the
rest of the database unchanged. -/
theorem submitCallSurvey_success (oracle : Nat → Bool) (session : Session)
    (caller : UserRow) (hses : session.user = some caller) (inp : SurveyInput)
    (now : Int) (w : World) (r : AssignedCallRow) (ca : CallAssignmentRow)
    (sv : GcSurveyRow) (p : PersonRow)
    (hfind : w.db.assigned_calls.find? (fun x =>
        x.caller_id == caller.id && x.call_assignment_id == inp.callAssignmentId) = some r)
    (hiv : r.interviewee_id = inp.intervieweeId)
    (hca : w.db.call_assignments.find? (fun a => a.id == inp.callAssignmentId) = some ca)
    (hsv : w.db.gc_surveys.find? (fun s => s.id == ca.gc_bsd_survey_id) = some sv)
    (hp : w.db.people.find? (fun q => q.cons_id == inp.intervieweeId) = some p)
    (haddr : (getPrimaryAddress w.db p).isSome) :
    ∃ w', submitCallSurvey oracle session inp now w = (.ok caller, w') ∧
      w'.db = { w.db with
        assigned_calls := w.db.assigned_calls.filter fun x => x.id ≠ r.id
        calls := w.db.calls ++ [{ completed := inp.completed
                                  attempted_at := now
                                  left_voicemail := inp.leftVoicemail
                                  sent_text := inp.sentText
                                  reason_not_completed := inp.reasonNotCompleted
                                  caller_id := caller.id
                                  interviewee_id := r.interviewee_id
                                  call_assignment_id := r.call_assignment_id }] } := by
  have hpred := List.find?_some hfind
  simp only [Bool.and_eq_true, beq_iff_eq] at hpred
  simp only [submitCallSurvey, authRequired, hses, runTransaction, submitCallSurveyBody,
    hfind, hca, hsv, hp]
  rw [if_neg (by push_neg; exact ⟨hpred.1, hiv, hpred.2⟩)]
  by_cases hcomp : inp.completed ∧ sv.processors.length > 0
  · rw [if_pos hcomp]
    obtain ⟨w1, hrun, hdb⟩ := runProcessors_ok oracle p (getPrimaryEmail w.db p)
      (inp.fieldValues.lookup "event_id") sv.processors w haddr
    rw [hrun]
    exact ⟨_, rfl, by rw [hdb]⟩
  · rw [if_neg hcomp]
    exact ⟨_, rfl, rfl⟩

/-- **C1.** `SubmitCallSurvey` is transactional and atomic on error: when no
`bsd_assigned_calls` row matches the submitting caller and call assignment, or
when the matched row's interviewee differs from the submitted one, the
mutation throws and the database is unchanged; when the checks pass (and the
call assignment, survey and person rows exist, the person having a primary
address) exactly one `bsd_calls` row is inserted and the matching assigned
call is deleted. -/
theorem C1_submitCallSurvey_atomic (oracle : Nat → Bool) (session : Session)
    (caller : UserRow) (hses : session.user = some caller) (inp : SurveyInput)
    (now : Int) (w : World) :
    ((∀ x ∈ w.db.assigned_calls,
        ¬(x.caller_id = caller.id ∧ x.call_assignment_id = inp.callAssignmentId)) →
      ∃ e, submitCallSurvey oracle session inp now w = (.error e, w)) ∧
    (∀ r, w.db.assigned_calls.find? (fun x =>
        x.caller_id == caller.id && x.call_assignment_id == inp.callAssignmentId) = some r →
      r.interviewee_id ≠ inp.intervieweeId →
      ∃ e, submitCallSurvey oracle session inp now w = (.error e, w)) ∧
    (∀ r ca sv p,
      w.db.assigned_calls.find? (fun x =>
        x.caller_id == caller.id && x.call_assignment_id == inp.callAssignmentId) = some r →
      r.interviewee_id = inp.intervieweeId →
      w.db.call_assignments.find? (fun a => a.id == inp.callAssignmentId) = some ca →
      w.db.gc_surveys.find? (fun s => s.id == ca.gc_bsd_survey_id) = some sv →
      w.db.people.find? (fun q => q.cons_id == inp.intervieweeId) = some p →
      (getPrimaryAddress w.db p).isSome →
      ∃ w', submitCallSurvey oracle session inp now w = (.ok caller, w') ∧
        w'.db = { w.db with
          assigned_calls := w.db.assigned_calls.filter fun x => x.id ≠ r.id
          calls := w.db.calls ++ [{ completed := inp.completed
                                    attempted_at := now
                                    left_voicemail := inp.leftVoicemail
                                    sent_text := inp.sentText
                                    reason_not_completed := inp.reasonNotCompleted
                                    caller_id := caller.id
                                    interviewee_id := r.interviewee_id
                                    call_assignment_id := r.call_assignment_id }] }) := by
  refine ⟨?_, ?_, ?_⟩
  · intro h
    have hf : w.db.assigned_calls.find? (fun x =>
        x.caller_id == caller.id && x.call_assignment_id == inp.callAssignmentId) = none := by
      rw [List.find?_eq_none]
      intro x hx
      have := h x hx
      simp only [Bool.and_eq_true, beq_iff_eq]
      tauto
    refine ⟨.plain "No assigned call found when caller submitted call survey", ?_⟩
    simp [submitCallSurvey, authRequired, hses, runTransaction, submitCallSurveyBody, hf]
  · intro r hfind hne
    refine ⟨.plain "Assigned call does not match submitted call info.", ?_⟩
    simp only [submitCallSurvey, authRequired, hses, runTransaction,
      submitCallSurveyBody, hfind]
    rw [if_pos (Or.inr (Or.inl hne))]
  · intro r ca sv p hfind hiv hca hsv hp haddr
    exact submitCallSurvey_success oracle session caller hses inp now w r ca sv p
      hfind hiv hca hsv hp haddr

/-- **C1 witness.** Concretely: a caller with no assigned call is rejected
with the database unchanged, and the fixture caller's matching submission
inserts exactly one call row and deletes assigned call 1. -/
theorem C1_submitCallSurvey_atomic_witness :
    (∃ e, submitCallSurvey (fun _ => true) ⟨some fixtureSuper⟩ fixtureSurveyInput 0
        fixtureWorld = (.error e, fixtureWorld)) ∧
    (∃ w', submitCallSurvey (fun _ => true) ⟨some fixtureNonAdmin⟩ fixtureSurveyInput 0
        fixtureWorld = (.ok fixtureNonAdmin, w') ∧
      w'.db = { fixtureWorld.db with
        assigned_calls := fixtureWorld.db.assigned_calls.filter fun x => x.id ≠ 1
        calls := fixtureWorld.db.calls ++
          [{ completed := true
             attempted_at := 0
             left_voicemail := none
             sent_text := none
             reason_not_completed := none
             caller_id := 7
             interviewee_id := 2
             call_assignment_id := 5 }] }) := by
  constructor
  · exact (C1_submitCallSurvey_atomic (fun _ => true) ⟨some fixtureSuper⟩ fixtureSuper rfl
      fixtureSurveyInput 0 fixtureWorld).1 (by decide)
  · exact (C1_submitCallSurvey_atomic (fun _ => true) ⟨some fixtureNonAdmin⟩
      fixtureNonAdmin rfl fixtureSurveyInput 0 fixtureWorld).2.2
      ⟨1, 7, 2, 5⟩ ⟨5, 10, 20⟩ ⟨10, 100, ["bsd-form-submitter"]⟩ ⟨2⟩
      (by decide) (by decide) (by decide) (by decide) (by decide) (by decide)

/-- **C6.** CRM failures during survey processing are caught, not propagated:
for every CRM oracle — in particular one on which every CRM call fails — a
completed submission that passes the assigned-call checks still deletes the
assigned call and inserts the `bsd_calls` record, because the processors only
reach the CRM through `noFailApiRequest`. -/
theorem C6_crm_failures_ignored (oracle : Nat → Bool) (session : Session)
    (caller : UserRow) (hses : session.user = some caller) (inp : SurveyInput)
    (hcompleted : inp.completed = true) (now : Int) (w : World)
    (r : AssignedCallRow) (ca : CallAssignmentRow) (sv : GcSurveyRow) (p : PersonRow)
    (hfind : w.db.assigned_calls.find? (fun x =>
        x.caller_id == caller.id && x.call_assignment_id == inp.callAssignmentId) = some r)
    (hiv : r.interviewee_id = inp.intervieweeId)
    (hca : w.db.call_assignments.find? (fun a => a.id == inp.callAssignmentId) = some ca)
    (hsv : w.db.gc_surveys.find? (fun s => s.id == ca.gc_bsd_survey_id) = some sv)
    (hp : w.db.people.find? (fun q => q.cons_id == inp.intervieweeId) = some p)
    (haddr : (getPrimaryAddress w.db p).isSome) :
    ∃ w', submitCallSurvey oracle session inp now w = (.ok caller, w') ∧
      w'.db.calls = w.db.calls ++ [{ completed := inp.completed
                                     attempted_at := now
                                     left_voicemail := inp.leftVoicemail
                                     sent_text := inp.sentText
                                     reason_not_completed := inp.reasonNotCompleted
                                     caller_id := caller.id
                                     interviewee_id := r.interviewee_id
                                     call_assignment_id := r.call_assignment_id }] ∧
      w'.db.assigned_calls = w.db.assigned_calls.filter fun x => x.id ≠ r.id := by
  obtain ⟨w', hw', hdb⟩ := submitCallSurvey_success oracle session caller hses inp now w
    r ca sv p hfind hiv hca hsv hp haddr
  exact ⟨w', hw', by rw [hdb], by rw [hdb]⟩

/-- The initial delete leaves no assigned call of the caller. -/
theorem deleteCallerAssigned_no_caller (db : Db) (uid : Nat) :
    ∀ r ∈ (deleteCallerAssigned db uid).assigned_calls, r.caller_id ≠ uid := by
  intro r hr
  have hmem := List.mem_filter.mp hr
  simpa using hmem.2

/-- On a database holding no assigned call of the caller, the resolver body
either throws, or returns null, or inserts exactly the one assigned call of
the candidate found by the single callable query; the race-condition re-check
never fires. -/
theorem intervieweeBody_cases (development : Bool) (user : UserRow) (caId : Nat)
    (nowUtcHour now : Int) (db1 : Db)
    (hdel : ∀ r ∈ db1.assigned_calls, r.caller_id ≠ user.id) :
    (∃ e, intervieweeBody development user caId nowUtcHour now db1 = (.error e, db1)) ∨
    intervieweeBody development user caId nowUtcHour now db1 = (.ok none, db1) ∨
    ∃ cid ca group,
      db1.call_assignments.find? (fun a => a.id == caId) = some ca ∧
      db1.gc_groups.find? (fun g => g.id == ca.interviewee_group) = some group ∧
      (intervieweeBase db1 group).find? (callableFilter db1
        (validOffsets development nowUtcHour) (previousCallsExclusion db1 caId now)
        (assignedExclusion db1)
        ((db1.emails.find? fun e => e.email == user.email).map fun e => e.cons_id)) =
        some cid ∧
      intervieweeBody development user caId nowUtcHour now db1 =
        (.ok (db1.people.find? fun p => p.cons_id == cid),
         { db1 with
            assigned_calls := db1.assigned_calls ++ [⟨db1.next_id, user.id, cid, caId⟩]
            next_id := db1.next_id + 1 }) := by
  have hre : db1.assigned_calls.find? (fun r =>
      r.caller_id == user.id && r.call_assignment_id == caId) = none := by
    rw [List.find?_eq_none]
    intro r hr
    simp only [Bool.and_eq_true, beq_iff_eq]
    intro hcontra
    exact hdel r hr hcontra.1
  simp only [intervieweeBody, hre]
  split
  · exact Or.inl ⟨_, rfl⟩
  · rename_i ca hca
    split
    · exact Or.inr (Or.inl rfl)
    · split
      · exact Or.inl ⟨_, rfl⟩
      · rename_i group hgroup
        split
        · exact Or.inr (Or.inl rfl)
        · rename_i cid hcand
          exact Or.inr (Or.inr ⟨cid, ca, group, hca, hgroup, hcand, rfl⟩)

/-- The candidate filter ignores the address geometry. -/
theorem callableFilter_mapGeoms (f : Int → Int) (db : Db) (offsets : List Int)
    (prevExcl assignedIds : List Nat) (notCons : Option Nat) :
    callableFilter (dbMapGeoms f db) offsets prevExcl assignedIds notCons =
      callableFilter db offsets prevExcl assignedIds notCons := by
  funext cid
  simp only [callableFilter, dbMapGeoms, List.any_map]
  rfl

/-- The resolver body is invariant under address-geometry changes: the result
is identical and the database effect differs only by the same geometry
change. -/
theorem intervieweeBody_mapGeoms (f : Int → Int) (development : Bool) (user : UserRow)
    (caId : Nat) (nowUtcHour now : Int) (db1 : Db) :
    intervieweeBody development user caId nowUtcHour now (dbMapGeoms f db1) =
      ((intervieweeBody development user caId nowUtcHour now db1).1,
       dbMapGeoms f (intervieweeBody development user caId nowUtcHour now db1).2) := by
  have h1 : (dbMapGeoms f db1).call_assignments = db1.call_assignments := rfl
  have h2 : (dbMapGeoms f db1).gc_groups = db1.gc_groups := rfl
  have h3 : (dbMapGeoms f db1).emails = db1.emails := rfl
  have h4 : (dbMapGeoms f db1).people = db1.people := rfl
  have h5 : (dbMapGeoms f db1).assigned_calls = db1.assigned_calls := rfl
  have h6 : previousCallsExclusion (dbMapGeoms f db1) caId now =
      previousCallsExclusion db1 caId now := rfl
  have h7 : assignedExclusion (dbMapGeoms f db1) = assignedExclusion db1 := rfl
  have h8 : ∀ group, intervieweeBase (dbMapGeoms f db1) group =
      intervieweeBase db1 group := fun _ => rfl
  have h9 : (dbMapGeoms f db1).users = db1.users := rfl
  have h10 : (dbMapGeoms f db1).phones = db1.phones := rfl
  have h11 : (dbMapGeoms f db1).zip_codes = db1.zip_codes := rfl
  have h12 : (dbMapGeoms f db1).subscriptions = db1.subscriptions := rfl
  have h13 : (dbMapGeoms f db1).communications = db1.communications := rfl
  have h14 : (dbMapGeoms f db1).calls = db1.calls := rfl
  have h15 : (dbMapGeoms f db1).gc_surveys = db1.gc_surveys := rfl
  have h16 : (dbMapGeoms f db1).person_bsd_groups = db1.person_bsd_groups := rfl
  have h17 : (dbMapGeoms f db1).person_gc_groups = db1.person_gc_groups := rfl
  have h18 : (dbMapGeoms f db1).survey_fields = db1.survey_fields := rfl
  have h19 : (dbMapGeoms f db1).events = db1.events := rfl
  have h20 : (dbMapGeoms f db1).gc_events = db1.gc_events := rfl
  have h21 : (dbMapGeoms f db1).fast_fwd_request = db1.fast_fwd_request := rfl
  have h22 : (dbMapGeoms f db1).next_id = db1.next_id := rfl
  have h23 : (dbMapGeoms f db1).addresses =
      db1.addresses.map (fun a => { a with geom := f a.geom }) := rfl
  simp only [intervieweeBody, h1, h2, h3, h4, h5, h6, h7, h8, h9, h10, h11, h12, h13,
    h14, h15, h16, h17, h18, h19, h20, h21, h22, h23, callableFilter_mapGeoms]
  cases hca : db1.call_assignments.find? fun a => a.id == caId with
  | none => simp [hca, dbMapGeoms]
  | some ca =>
    by_cases hemp : (validOffsets development nowUtcHour).isEmpty
    · simp [hca, hemp, dbMapGeoms]
    · simp only [hca, hemp, Bool.false_eq_true, if_false]
      cases hgr : db1.gc_groups.find? fun g => g.id == ca.interviewee_group with
      | none => simp [hgr, dbMapGeoms]
      | some group =>
        cases hcand : (intervieweeBase db1 group).find? (callableFilter db1
            (validOffsets development nowUtcHour) (previousCallsExclusion db1 caId now)
            (assignedExclusion db1)
            ((db1.emails.find? fun e => e.email == user.email).map fun e => e.cons_id)) with
        | none => simp [hgr, hcand, dbMapGeoms]
        | some cid =>
          cases hre : db1.assigned_calls.find? fun r =>
              r.caller_id == user.id && r.call_assignment_id == caId with
          | none => simp [hgr, hcand, hre, dbMapGeoms]
          | some ac => simp [hgr, hcand, hre, dbMapGeoms]

/-- A person accepted by the candidate filter has a primary phone, a primary
address whose zip's timezone offset is among the given offsets, and is on
neither exclusion list. -/
theorem callableFilter_spec {db : Db} {offsets : List Int}
    {prevExcl assignedIds : List Nat} {notCons : Option Nat} {cid : Nat}
    (h : callableFilter db offsets prevExcl assignedIds notCons cid = true) :
    (db.phones.any fun ph => ph.cons_id == cid && ph.is_primary) = true ∧
    (∃ a ∈ db.addresses, a.cons_id = cid ∧ a.is_primary = true ∧
      ∃ z ∈ db.zip_codes, z.zip = a.zip ∧ z.timezone_offset ∈ offsets) ∧
    cid ∉ prevExcl ∧ cid ∉ assignedIds := by
  unfold callableFilter at h
  simp only [Bool.and_eq_true, Bool.not_eq_true'] at h
  obtain ⟨⟨⟨⟨hph, haddr⟩, hprev⟩, hassigned⟩, -⟩ := h
  refine ⟨hph, ?_, ?_, ?_⟩
  · obtain ⟨a, ha, hconj⟩ := List.any_eq_true.mp haddr
    simp only [Bool.and_eq_true, beq_iff_eq] at hconj
    obtain ⟨⟨hac, hap⟩, hz⟩ := hconj
    obtain ⟨z, hzmem, hzconj⟩ := List.any_eq_true.mp hz
    simp only [Bool.and_eq_true, beq_iff_eq] at hzconj
    exact ⟨a, ha, hac, hap, z, hzmem, hzconj.1, List.elem_iff.mp hzconj.2⟩
  · intro hc
    have h2 := List.elem_iff.mpr hc
    simp only [List.contains] at hprev
    rw [hprev] at h2
    simp at h2
  · intro hc
    have h2 := List.elem_iff.mpr hc
    simp only [List.contains] at hassigned
    rw [hassigned] at h2
    simp at h2

/-- Outside development mode, an offset is valid exactly when it is one of the
seven US offsets and its local hour is in the 9am–9pm window. -/
theorem validOffsets_spec {o nowUtcHour : Int} (h : o ∈ validOffsets false nowUtcHour) :
    o ∈ ([-10, -9, -8, -7, -6, -5, -4] : List Int) ∧
    9 ≤ (nowUtcHour + o).emod 24 ∧ (nowUtcHour + o).emod 24 < 21 := by
  simp only [validOffsets, Bool.false_eq_true, if_false, List.mem_filter,
    Bool.and_eq_true, decide_eq_true_eq] at h
  exact ⟨h.1, h.2.1, h.2.2⟩

/-- **C6 witness.** On the oracle where every CRM call fails, the fixture
submission with `completed = true` still succeeds: the call row is inserted
and the assigned call deleted. -/
theorem C6_crm_failures_ignored_witness :
    ∃ w', submitCallSurvey (fun _ => false) ⟨some fixtureNonAdmin⟩ fixtureSurveyInput 0
        fixtureWorld = (.ok fixtureNonAdmin, w') ∧
      w'.db.calls = fixtureWorld.db.calls ++
        [{ completed := true
           attempted_at := 0
           left_voicemail := none
           sent_text := none
           reason_not_completed := none
           caller_id := 7
           interviewee_id := 2
           call_assignment_id := 5 }] ∧
      w'.db.assigned_calls = fixtureWorld.db.assigned_calls.filter fun x => x.id ≠ 1 := by
  exact C6_crm_failures_ignored (fun _ => false) ⟨some fixtureNonAdmin⟩ fixtureNonAdmin rfl
    fixtureSurveyInput rfl 0 fixtureWorld
    ⟨1, 7, 2, 5⟩ ⟨5, 10, 20⟩ ⟨10, 100, ["bsd-form-submitter"]⟩ ⟨2⟩
    (by decide) (by decide) (by decide) (by decide) (by decide) (by decide)

/-- **C10.** `intervieweeForCallAssignment` first deletes every assigned call
of the requesting user — across all call assignments — and leaves other
callers' assigned calls unchanged; afterwards the user holds at most one
assigned call (the one possibly inserted for the found candidate). -/
theorem C10_delete_then_single_assignment (development : Bool) (user : UserRow)
    (caId : Nat) (nowUtcHour now : Int) (w : World)
    (hwf : ∀ r ∈ w.db.assigned_calls, r.id < w.db.next_id) :
    (∀ r ∈ w.db.assigned_calls, r.caller_id = user.id →
      r ∉ (intervieweeForCallAssignment development user caId nowUtcHour
        now w).2.db.assigned_calls) ∧
    ((intervieweeForCallAssignment development user caId nowUtcHour
        now w).2.db.assigned_calls.filter fun r => r.caller_id ≠ user.id) =
      w.db.assigned_calls.filter (fun r => r.caller_id ≠ user.id) ∧
    ((intervieweeForCallAssignment development user caId nowUtcHour
        now w).2.db.assigned_calls.filter fun r => r.caller_id = user.id).length ≤ 1 := by
  have hdel := deleteCallerAssigned_no_caller w.db user.id
  have hres : (intervieweeForCallAssignment development user caId nowUtcHour now w).2.db =
      (intervieweeBody development user caId nowUtcHour now
        (deleteCallerAssigned w.db user.id)).2 := rfl
  have hself : (deleteCallerAssigned w.db user.id).assigned_calls.filter
      (fun r => r.caller_id ≠ user.id) =
      (deleteCallerAssigned w.db user.id).assigned_calls := by
    rw [List.filter_eq_self]
    intro r hr
    simpa using hdel r hr
  have hnil : (deleteCallerAssigned w.db user.id).assigned_calls.filter
      (fun r => r.caller_id = user.id) = [] := by
    rw [List.filter_eq_nil_iff]
    intro r hr
    simpa using hdel r hr
  rcases intervieweeBody_cases development user caId nowUtcHour now _ hdel with
    ⟨e, heq⟩ | heq | ⟨cid, ca, group, -, -, -, heq⟩
  · rw [hres, heq]
    dsimp only
    exact ⟨fun r _ hc hmem => hdel r hmem hc, hself.trans rfl, by rw [hnil]; simp⟩
  · rw [hres, heq]
    dsimp only
    exact ⟨fun r _ hc hmem => hdel r hmem hc, hself.trans rfl, by rw [hnil]; simp⟩
  · rw [hres, heq]
    dsimp only
    refine ⟨?_, ?_, ?_⟩
    · intro r hr hc hmem
      rcases List.mem_append.mp hmem with hm | hm
      · exact hdel r hm hc
      · have hreq : r = ⟨(deleteCallerAssigned w.db user.id).next_id, user.id, cid, caId⟩ :=
          List.mem_singleton.mp hm
        have h2 := hwf r hr
        rw [hreq] at h2
        simp [deleteCallerAssigned] at h2
    · rw [List.filter_append, hself]
      have hrow : ([(⟨(deleteCallerAssigned w.db user.id).next_id, user.id, cid, caId⟩ :
          AssignedCallRow)].filter fun r => r.caller_id ≠ user.id) = [] := by simp
      rw [hrow, List.append_nil]
      rfl
    · rw [List.filter_append, hnil, List.nil_append]
      exact le_trans (List.length_filter_le _ _) (by simp)

/-- **C10 witness.** On the fixture world, the requesting user's old assigned
call is gone and the user holds at most one assigned call afterwards. -/
theorem C10_delete_then_single_assignment_witness :
    (∀ r ∈ fixtureWorld.db.assigned_calls, r.caller_id = fixtureNonAdmin.id →
      r ∉ (intervieweeForCallAssignment false fixtureNonAdmin 5 18 0
        fixtureWorld).2.db.assigned_calls) ∧
    ((intervieweeForCallAssignment false fixtureNonAdmin 5 18 0
        fixtureWorld).2.db.assigned_calls.filter
      fun r => r.caller_id = fixtureNonAdmin.id).length ≤ 1 := by
  have h := C10_delete_then_single_assignment false fixtureNonAdmin 5 18 0 fixtureWorld
    (by decide)
  exact ⟨h.1, h.2.2⟩

/-- **C5.** Outside development mode, every interviewee the resolver assigns —
the inserted assigned call and the returned person — has a primary address
whose zip maps to a UTC offset among {-10, …, -4} whose local hour is in the
9am–9pm window; and when no offset qualifies (given the call assignment
exists) the resolver returns null and inserts no assigned call. -/
theorem C5_timezone_calling_window (user : UserRow) (caId : Nat) (nowUtcHour now : Int)
    (w : World) :
    (∀ r, r ∈ (intervieweeForCallAssignment false user caId nowUtcHour
        now w).2.db.assigned_calls →
      r ∉ (deleteCallerAssigned w.db user.id).assigned_calls →
      ∃ a ∈ w.db.addresses, a.cons_id = r.interviewee_id ∧ a.is_primary = true ∧
        ∃ z ∈ w.db.zip_codes, z.zip = a.zip ∧
          z.timezone_offset ∈ ([-10, -9, -8, -7, -6, -5, -4] : List Int) ∧
          9 ≤ (nowUtcHour + z.timezone_offset).emod 24 ∧
          (nowUtcHour + z.timezone_offset).emod 24 < 21) ∧
    (∀ p, (intervieweeForCallAssignment false user caId nowUtcHour now w).1 =
        .ok (some p) →
      ∃ a ∈ w.db.addresses, a.cons_id = p.cons_id ∧ a.is_primary = true ∧
        ∃ z ∈ w.db.zip_codes, z.zip = a.zip ∧
          z.timezone_offset ∈ ([-10, -9, -8, -7, -6, -5, -4] : List Int) ∧
          9 ≤ (nowUtcHour + z.timezone_offset).emod 24 ∧
          (nowUtcHour + z.timezone_offset).emod 24 < 21) ∧
    (validOffsets false nowUtcHour = [] →
      ∀ ca, w.db.call_assignments.find? (fun a => a.id == caId) = some ca →
        (intervieweeForCallAssignment false user caId nowUtcHour now w).1 = .ok none ∧
        (intervieweeForCallAssignment false user caId nowUtcHour
          now w).2.db.assigned_calls =
          (deleteCallerAssigned w.db user.id).assigned_calls) := by
  have hdel := deleteCallerAssigned_no_caller w.db user.id
  have hres : (intervieweeForCallAssignment false user caId nowUtcHour now w).2.db =
      (intervieweeBody false user caId nowUtcHour now
        (deleteCallerAssigned w.db user.id)).2 := rfl
  have hres1 : (intervieweeForCallAssignment false user caId nowUtcHour now w).1 =
      (intervieweeBody false user caId nowUtcHour now
        (deleteCallerAssigned w.db user.id)).1 := rfl
  have hwindow : ∀ cid (prevExcl assignedIds : List Nat) (notCons : Option Nat),
      callableFilter (deleteCallerAssigned w.db user.id)
        (validOffsets false nowUtcHour) prevExcl assignedIds notCons cid = true →
      ∃ a ∈ w.db.addresses, a.cons_id = cid ∧ a.is_primary = true ∧
        ∃ z ∈ w.db.zip_codes, z.zip = a.zip ∧
          z.timezone_offset ∈ ([-10, -9, -8, -7, -6, -5, -4] : List Int) ∧
          9 ≤ (nowUtcHour + z.timezone_offset).emod 24 ∧
          (nowUtcHour + z.timezone_offset).emod 24 < 21 := by
    intro cid prevExcl assignedIds notCons hc
    obtain ⟨-, ⟨a, ha, hac, hap, z, hz, hzz, hzoff⟩, -, -⟩ := callableFilter_spec hc
    obtain ⟨hmem7, hge, hlt⟩ := validOffsets_spec hzoff
    exact ⟨a, ha, hac, hap, z, hz, hzz, hmem7, hge, hlt⟩
  refine ⟨?_, ?_, ?_⟩
  · intro r hr hnot
    rcases intervieweeBody_cases false user caId nowUtcHour now _ hdel with
      ⟨e, heq⟩ | heq | ⟨cid, ca, group, -, -, hcand, heq⟩
    · rw [hres, heq] at hr
      exact absurd hr hnot
    · rw [hres, heq] at hr
      exact absurd hr hnot
    · rw [hres, heq] at hr
      dsimp only at hr
      rcases List.mem_append.mp hr with hm | hm
      · exact absurd hm hnot
      · have hreq := List.mem_singleton.mp hm
        rw [hreq]
        exact hwindow cid _ _ _ (List.find?_some hcand)
  · intro p hp
    rcases intervieweeBody_cases false user caId nowUtcHour now _ hdel with
      ⟨e, heq⟩ | heq | ⟨cid, ca, group, -, -, hcand, heq⟩
    · rw [hres1, heq] at hp
      exact absurd hp (by simp)
    · rw [hres1, heq] at hp
      exact absurd hp (by simp)
    · rw [hres1, heq] at hp
      dsimp only at hp
      have hfind := Except.ok.inj hp
      have hpc : p.cons_id = cid := by simpa using List.find?_some hfind
      rw [hpc]
      exact hwindow cid _ _ _ (List.find?_some hcand)
  · intro hoff ca hca
    have hbody : intervieweeBody false user caId nowUtcHour now
        (deleteCallerAssigned w.db user.id) =
        (.ok none, deleteCallerAssigned w.db user.id) := by
      have hca' : (deleteCallerAssigned w.db user.id).call_assignments.find?
          (fun a => a.id == caId) = some ca := hca
      simp [intervieweeBody, hca', hoff]
    rw [hres1, hres, hbody]
    exact ⟨rfl, rfl⟩

/-- **C5 witness.** At 18:00 UTC the fixture resolver assigns person 2, whose
primary address zip 05401 has offset -5 (1pm local); the returned person's
window property holds concretely. -/
theorem C5_timezone_calling_window_witness :
    ∃ a ∈ fixtureWorld.db.addresses, a.cons_id = (PersonRow.mk 2).cons_id ∧
      a.is_primary = true ∧
      ∃ z ∈ fixtureWorld.db.zip_codes, z.zip = a.zip ∧
        z.timezone_offset ∈ ([-10, -9, -8, -7, -6, -5, -4] : List Int) ∧
        9 ≤ ((18 : Int) + z.timezone_offset).emod 24 ∧
        ((18 : Int) + z.timezone_offset).emod 24 < 21 := by
  exact (C5_timezone_calling_window fixtureNonAdmin 5 18 0 fixtureWorld).2.1 ⟨2⟩ (by decide)

/-- **C2 (amended).** Interviewee selection is a single, non-geographic query
with an exclusion list: its outcome and its effect on `bsd_assigned_calls` are
invariant under arbitrary relocation of every address geometry (so no search
radius is consulted, let alone widened over successive queries), and an
assigned interviewee is off the previously-called exclusion list, not
currently assigned, and reachable at a primary phone and a primary address in
a valid timezone. -/
theorem C2_interviewee_selection_single_query (development : Bool) (user : UserRow)
    (caId : Nat) (nowUtcHour now : Int) (w : World) :
    (∀ f : Int → Int,
      (intervieweeForCallAssignment development user caId nowUtcHour
        now (mapGeoms f w)).1 =
        (intervieweeForCallAssignment development user caId nowUtcHour now w).1 ∧
      (intervieweeForCallAssignment development user caId nowUtcHour
        now (mapGeoms f w)).2.db.assigned_calls =
        (intervieweeForCallAssignment development user caId nowUtcHour
          now w).2.db.assigned_calls) ∧
    (∀ p, (intervieweeForCallAssignment development user caId nowUtcHour now w).1 =
        .ok (some p) →
      p.cons_id ∉ previousCallsExclusion (deleteCallerAssigned w.db user.id) caId now ∧
      p.cons_id ∉ assignedExclusion (deleteCallerAssigned w.db user.id) ∧
      (w.db.phones.any fun ph => ph.cons_id == p.cons_id && ph.is_primary) = true ∧
      ∃ a ∈ w.db.addresses, a.cons_id = p.cons_id ∧ a.is_primary = true ∧
        ∃ z ∈ w.db.zip_codes, z.zip = a.zip ∧
          z.timezone_offset ∈ validOffsets development nowUtcHour) := by
  have hdel := deleteCallerAssigned_no_caller w.db user.id
  constructor
  · intro f
    have hcomm : deleteCallerAssigned (mapGeoms f w).db user.id =
        dbMapGeoms f (deleteCallerAssigned w.db user.id) := rfl
    have hb := intervieweeBody_mapGeoms f development user caId nowUtcHour now
      (deleteCallerAssigned w.db user.id)
    constructor
    · show (intervieweeBody development user caId nowUtcHour now
          (deleteCallerAssigned (mapGeoms f w).db user.id)).1 = _
      rw [hcomm, hb]
      rfl
    · show (intervieweeBody development user caId nowUtcHour now
          (deleteCallerAssigned (mapGeoms f w).db user.id)).2.assigned_calls = _
      rw [hcomm, hb]
      rfl
  · intro p hp
    have hres1 : (intervieweeForCallAssignment development user caId nowUtcHour now w).1 =
        (intervieweeBody development user caId nowUtcHour now
          (deleteCallerAssigned w.db user.id)).1 := rfl
    rcases intervieweeBody_cases development user caId nowUtcHour now _ hdel with
      ⟨e, heq⟩ | heq | ⟨cid, ca, group, -, -, hcand, heq⟩
    · rw [hres1, heq] at hp
      exact absurd hp (by simp)
    · rw [hres1, heq] at hp
      exact absurd hp (by simp)
    · rw [hres1, heq] at hp
      dsimp only at hp
      have hfind := Except.ok.inj hp
      have hpc : p.cons_id = cid := by simpa using List.find?_some hfind
      obtain ⟨hph, ⟨a, ha, hac, hap, z, hz, hzz, hzoff⟩, hprev, hassigned⟩ :=
        callableFilter_spec (List.find?_some hcand)
      rw [hpc]
      exact ⟨hprev, hassigned, hph, a, ha, hac, hap, z, hz, hzz, hzoff⟩

/-- **C2 witness.** Concretely: relocating every fixture address by +123456
changes neither the selection nor the assigned calls, and the selected person
2 is not on the previously-called exclusion list. -/
theorem C2_interviewee_selection_single_query_witness :
    (intervieweeForCallAssignment false fixtureNonAdmin 5 18 0
        (mapGeoms (fun g => g + 123456) fixtureWorld)).1 =
      (intervieweeForCallAssignment false fixtureNonAdmin 5 18 0 fixtureWorld).1 ∧
    (PersonRow.mk 2).cons_id ∉
      previousCallsExclusion (deleteCallerAssigned fixtureWorld.db fixtureNonAdmin.id)
        5 0 := by
  have h := C2_interviewee_selection_single_query false fixtureNonAdmin 5 18 0 fixtureWorld
  exact ⟨(h.1 (fun g => g + 123456)).1, (h.2 ⟨2⟩ (by decide)).1⟩

/-- **C2 counterexample.** The claim says interviewee selection widens a
geographic search radius over sequential queries.  Concretely, moving the only
candidate's address a million units away changes nothing about interviewee
selection — the same person is assigned by the one candidate query, which
carries no distance bound — although the same relocation empties the
radius-bounded query that the actual expanding-radius search (`nearbyPeople`)
issues at its starting radius.  The selection is therefore not a
radius-widening search. -/
theorem C2_interviewee_selection_counterexample :
    (intervieweeForCallAssignment false fixtureNonAdmin 5 18 0
        (mapGeoms (fun _ => 999999999) fixtureWorld)).1 =
      (intervieweeForCallAssignment false fixtureNonAdmin 5 18 0 fixtureWorld).1 ∧
    (intervieweeForCallAssignment false fixtureNonAdmin 5 18 0 fixtureWorld).1 =
      .ok (some ⟨2⟩) ∧
    nearbyQuery (mapGeoms (fun _ => 999999999) fixtureWorld).db 0 1000 [] ≠
      nearbyQuery fixtureWorld.db 0 1000 [] := by
  refine ⟨?_, ?_, ?_⟩ <;> decide

end GroundControl
